import Mathlib

/-!
Shallow embedding of `tensorflow_probability/python/experimental/vi/cascading_flows.py`
(the cascading-flows surrogate-posterior builder) and proofs about it.

Modelling conventions:
* A distribution is a syntax tree (`Dist`) recording exactly the objects the
  Python code constructs (`TransformedDistribution`, `Sample`, `Blockwise`,
  `BatchBroadcast`, `Independent(Deterministic(...))`, the result of applying a
  `Split` bijector, and joint distributions built from a model coroutine).
  The numeric parameters of primitive families (loc/scale/rate/...) live in the
  external distribution library and are not modelled; event-shape structure is.
* The prior's `_model_coroutine` is modelled as the list of nodes it yields, in
  order, each with its `Root` tag.  The sampled values that the coroutine is
  resumed with do not influence which nodes this embedding's priors yield, so
  value plumbing (including the `tf.squeeze` branch) is not represented.
* Bijectors built by this module are always a `Chain` of primitive layers
  (`Reshape` and `build_highway_flow_layer` results).  A chain carries an
  allocation identifier so that distinct trainable-parameter objects can be
  counted; the trainable tensors inside a highway-flow layer belong to the
  external bijector library and are represented by the layer's construction
  arguments (width, residual fraction, activation flag, gate_first_n, seed).
* `samplers.split_seed` is external; it is modelled as a pure injective
  function on seeds, with `Option.none` standing for Python's `None`.
* Python exceptions are modelled with `Except String`.  General recursion of
  the graph walker is modelled with a fuel parameter (every recursive call
  consumes one unit); `OutOfFuel` is the only artefact of this device.
-/

namespace CascadingFlows

/-- Event shapes: a list of dimension sizes, as in `dist.event_shape_tensor()`. -/
abbrev Shape := List Nat

/-- Product of the dimensions, as `tf.reduce_prod` of a shape tensor
(the empty shape has size 1). -/
def shapeSize (s : Shape) : Nat := s.foldl (· * ·) 1

/-- Seeds.  `none` models Python's `None`. -/
abbrev Seed := Option Nat

/-- Model of `samplers.split_seed(seed)` returning a pair of derived seeds.
The seed-splitting utility is an external collaborator; the embedding only
needs it to be a pure function of the incoming seed. -/
def splitSeed : Seed → Seed × Seed
  | some n => (some (2 * n + 1), some (2 * n + 2))
  | none => (none, none)

/-- Primitive bijector layers appearing in the chains this module constructs.
`reshapeFlat s` is `tfb.Reshape([-1], event_shape_in=s)`;
`reshapeTo s` is `tfb.Reshape(s)` (with its default `event_shape_in=[-1]`);
`highwayFlowLayer` records the arguments of `build_highway_flow_layer
(width, residual_fraction_initial_value, activation_fn, gate_first_n, seed)`. -/
inductive PrimBij where
  | reshapeFlat (eventShapeIn : Shape)
  | reshapeTo (eventShapeOut : Shape)
  | highwayFlowLayer (width : Nat) (residualFraction : ℚ) (activationFn : Bool)
      (gateFirstN : Nat) (seed : Seed)
deriving Repr, DecidableEq

/-- A trainable bijector object: `tfb.Chain(bijectors=...)` tagged with an
allocation identifier used to count distinct trainable-parameter objects.
As in TensorFlow Probability, `Chain` applies the LAST list element first. -/
inductive Bij where
  | chainOf (objId : Nat) (bijectors : List PrimBij)
deriving Repr, DecidableEq

/-- Distribution syntax.  Scalar families carry only their name (their numeric
parameters belong to the external distribution library); `base` stands for an
arbitrary leaf distribution with a known event shape.  `jointD ab nm nodes`
models a joint distribution built from a model coroutine yielding `nodes` in
order (each with its `Root` tag); `ab` records whether the joint is
auto-batched (`hasattr(dist, 'use_vectorized_map')`). -/
inductive Dist where
  | base (name : String) (eventShape : Shape)
  | halfNormal (name : String)
  | uniform (name : String)
  | exponential (name : String)
  | chi2 (name : String)
  | truncatedNormal (name : String)
  | gamma (name : String)
  | shiftScaleBeta (name : String)
  | normalD (loc : ℚ) (scale : ℚ)
  | sampleD (d : Dist) (sampleShape : Nat)
  | transformed (d : Dist) (b : Bij)
  | blockwise2 (d1 : Dist) (d2 : Dist)
  | batchBroadcast (d : Dist)
  | independentDeterministic (dim : Nat)
  | split2 (numAux : Nat) (d : Dist)
  | jointD (autoBatched : Bool) (name : String) (nodes : List (Bool × Dist))
deriving Repr

/-- Model of `_get_name(dist)`. -/
def getName : Dist → String
  | .base n _ => n
  | .halfNormal n => n
  | .uniform n => n
  | .exponential n => n
  | .chi2 n => n
  | .truncatedNormal n => n
  | .gamma n => n
  | .shiftScaleBeta n => n
  | .normalD _ _ => "Normal"
  | .sampleD _ _ => "Sample"
  | .transformed _ _ => "TransformedDistribution"
  | .blockwise2 _ _ => "Blockwise"
  | .batchBroadcast _ => "BatchBroadcast"
  | .independentDeterministic _ => "IndependentDeterministic"
  | .split2 _ _ => "Split"
  | .jointD _ n _ => n

/-- Model of `_set_name(dist, name)`: copy the object, replacing its name
(where the constructor carries one). -/
def setName : Dist → String → Dist
  | .base _ es, n => .base n es
  | .halfNormal _, n => .halfNormal n
  | .uniform _, n => .uniform n
  | .exponential _, n => .exponential n
  | .chi2 _, n => .chi2 n
  | .truncatedNormal _, n => .truncatedNormal n
  | .gamma _, n => .gamma n
  | .shiftScaleBeta _, n => .shiftScaleBeta n
  | .jointD ab _ ns, n => .jointD ab n ns
  | d, _ => d

/-- Event structure of a distribution: either a single tensor shape or a
structured tuple of parts (as produced by a `Split` bijector). -/
inductive EvStruct where
  | single (s : Shape)
  | tuple (parts : List EvStruct)
deriving Repr

/-- Split a full event shape into (batch-like leading dims, trailing dims
matching `spec` positionally); `none` entries in `spec` (a `-1` in the
Reshape's `event_shape_in`) match any size.  Mirrors how a `tfb.Reshape`
validates its input event shape. -/
def matchTrailing (s : Shape) (spec : List (Option Nat)) :
    Except String (Shape × Shape) :=
  if spec.length ≤ s.length then
    let batch := s.take (s.length - spec.length)
    let ev := s.drop (s.length - spec.length)
    if (List.zip ev spec).all (fun p => p.2.elim true (fun d => d == p.1)) then
      .ok (batch, ev)
    else .error "ValueError: Reshape input event shape is incompatible"
  else .error "ValueError: Reshape input event rank is too small"

/-- Resolve a Reshape output spec against the total input event size;
`none` stands for a `-1` entry, inferred from the remaining size. -/
def resolveOut (evSize : Nat) (out : List (Option Nat)) : Except String Shape :=
  let knownProd := (out.filterMap id).foldl (· * ·) 1
  if out.count none = 0 then
    if knownProd = evSize then .ok (out.filterMap id)
    else .error "ValueError: Reshape output size does not match input size"
  else if out.count none = 1 then
    if 0 < knownProd ∧ evSize % knownProd = 0 then
      .ok (out.map (fun o => o.getD (evSize / knownProd)))
    else .error "ValueError: cannot infer Reshape -1 dimension"
  else .error "ValueError: Reshape output has multiple -1 entries"

/-- Forward event-shape semantics of one primitive layer.  A highway-flow
layer acts on the last axis, which must equal its width; a Reshape replaces
the trailing axes matching its input spec by its output spec. -/
def primForward : PrimBij → Shape → Except String Shape
  | .reshapeFlat eventShapeIn, s => do
      let (batch, ev) ← matchTrailing s (eventShapeIn.map some)
      let out ← resolveOut (shapeSize ev) [none]
      .ok (batch ++ out)
  | .reshapeTo eventShapeOut, s => do
      let (batch, ev) ← matchTrailing s [none]
      let out ← resolveOut (shapeSize ev) (eventShapeOut.map some)
      .ok (batch ++ out)
  | .highwayFlowLayer width _ _ _ _, s =>
      match s.getLast? with
      | some d =>
          if d = width then .ok s
          else .error "ValueError: highway flow width does not match input"
      | none => .error "ValueError: highway flow needs an input axis"

/-- Forward event-shape semantics of a stored chain list: as in
`tfb.Chain`, the last element of the list is applied first. -/
def chainForward : List PrimBij → Shape → Except String Shape
  | [], s => .ok s
  | b :: rest, s => do
      let s1 ← chainForward rest s
      primForward b s1

/-- Forward event-shape semantics of a bijector object. -/
def bijForward : Bij → Shape → Except String Shape
  | .chainOf _ bs, s => chainForward bs s

/-- Event structure of a distribution, following the shape-inference rules of
the external distribution library: `Sample` prepends its sample shape,
`TransformedDistribution` pushes the base event shape through the bijector,
`Blockwise` concatenates flattened events, `BatchBroadcast` keeps the event,
an `Independent(Deterministic(v), 1)` over the auxiliary vector has event
`[dim]`, and a `Split([-1, k])` output is a two-part tuple along the last
axis.  A joint node has no single event structure. -/
def evStruct : Dist → Except String EvStruct
  | .base _ es => .ok (.single es)
  | .halfNormal _ => .ok (.single [])
  | .uniform _ => .ok (.single [])
  | .exponential _ => .ok (.single [])
  | .chi2 _ => .ok (.single [])
  | .truncatedNormal _ => .ok (.single [])
  | .gamma _ => .ok (.single [])
  | .shiftScaleBeta _ => .ok (.single [])
  | .normalD _ _ => .ok (.single [])
  | .sampleD d n => do
      match ← evStruct d with
      | .single s => .ok (.single (n :: s))
      | .tuple _ => .error "TypeError: Sample over a structured distribution"
  | .transformed d b => do
      match ← evStruct d with
      | .single s => do
          let s1 ← bijForward b s
          .ok (.single s1)
      | .tuple _ => .error "TypeError: transform of a structured distribution"
  | .blockwise2 d1 d2 => do
      match ← evStruct d1, ← evStruct d2 with
      | .single s1, .single s2 => .ok (.single [shapeSize s1 + shapeSize s2])
      | _, _ => .error "TypeError: Blockwise over structured distributions"
  | .batchBroadcast d => evStruct d
  | .independentDeterministic dim => .ok (.single [dim])
  | .split2 numAux d => do
      match ← evStruct d with
      | .single s =>
          match s.getLast? with
          | some last =>
              if numAux ≤ last then
                .ok (.tuple [.single (s.dropLast ++ [last - numAux]),
                             .single (s.dropLast ++ [numAux])])
              else .error "ValueError: Split sizes exceed the input axis"
          | none => .error "ValueError: Split needs an input axis"
      | .tuple _ => .error "TypeError: Split of a structured distribution"
  | .jointD _ _ _ => .error "TypeError: a joint node has no single event structure"

/-- Model of `dist.event_shape_tensor()` for a non-joint distribution. -/
def eventShapeTensor (d : Dist) : Except String Shape := do
  match ← evStruct d with
  | .single s => .ok s
  | .tuple _ => .error "TypeError: structured event shape"

/-! ### Substitution registry (lines 74-151 of the source) -/

/-- Class tags usable as the `condition` argument of
`register_cf_substitution_rule`. -/
inductive DistClass where
  | halfNormalC
  | uniformC
  | exponentialC
  | chi2C
  | truncatedNormalC
  | gammaC
deriving Repr, DecidableEq

/-- Model of `isinstance(distribution, cls)` for the class tags above. -/
def isinstanceOf : Dist → DistClass → Bool
  | .halfNormal _, .halfNormalC => true
  | .uniform _, .uniformC => true
  | .exponential _, .exponentialC => true
  | .chi2 _, .chi2C => true
  | .truncatedNormal _, .truncatedNormalC => true
  | .gamma _, .gammaC => true
  | _, _ => false

/-- Identity of a dictionary key in `ASVI_SURROGATE_SUBSTITUTIONS`: either a
lambda freshly created by `register_cf_substitution_rule` for a class
condition, or a caller-supplied callable (identified by the caller). -/
inductive RuleKey where
  | wrapperKey (n : Nat)
  | callableKey (n : Nat)
deriving Repr, DecidableEq

/-- One entry of the substitution table: the key object, the predicate it
evaluates, and the substitution function. -/
structure Rule where
  key : RuleKey
  condition : Dist → Bool
  substitutionFn : Dist → Dist

/-- The `ASVI_SURROGATE_SUBSTITUTIONS` dict: entries in insertion order, plus
a counter supplying identities for freshly created wrapper lambdas. -/
structure Registry where
  rules : List Rule
  nextWrapperId : Nat

/-- The `condition` argument of `register_cf_substitution_rule`: either a
class type or a callable (with its object identity and predicate). -/
inductive CFCondition where
  | classCond (c : DistClass)
  | callableCond (keyId : Nat) (p : Dist → Bool)

/-- Model of `register_cf_substitution_rule(condition, substitution_fn)`
(lines 87-130).  A class condition is wrapped in a freshly created lambda
`lambda distribution, cls=condition: isinstance(distribution, cls)`, whose
object identity is new, so it is always inserted as a new dict entry.  A
callable condition is the dict key itself: if the same callable is already a
key, assignment overwrites its value in place (dicts keep insertion order). -/
def registerCfSubstitutionRule (cond : CFCondition) (fn : Dist → Dist)
    (reg : Registry) : Registry :=
  match cond with
  | .classCond c =>
      { rules := reg.rules ++
          [{ key := .wrapperKey reg.nextWrapperId,
             condition := fun d => isinstanceOf d c,
             substitutionFn := fn }],
        nextWrapperId := reg.nextWrapperId + 1 }
  | .callableCond keyId p =>
      if reg.rules.any (fun r => r.key == .callableKey keyId) then
        { reg with
            rules := reg.rules.map (fun r =>
              if r.key == .callableKey keyId then
                { key := r.key, condition := r.condition, substitutionFn := fn }
              else r) }
      else
        { reg with
            rules := reg.rules ++
              [{ key := .callableKey keyId, condition := p,
                 substitutionFn := fn }] }

/-- Model of `_as_substituted_distribution(distribution)` (lines 78-83):
iterate over all rules in insertion order, and for each whose condition
matches the current value, replace it by `substitution_fn` applied to it. -/
def asSubstitutedDistribution (rules : List Rule) (d : Dist) : Dist :=
  rules.foldl (fun d r => if r.condition d then r.substitutionFn d else d) d

/-- Default substitution for `HalfNormal` (lines 136-139): a
`TruncatedNormal(loc=0., scale=dist.scale, low=0., high=dist.scale * 10.)`.
The numeric parameters live in the external library and are elided. -/
def substHalfNormal : Dist → Dist
  | .halfNormal _ => .truncatedNormal "TruncatedNormal"
  | d => d

/-- Default substitution for `Uniform` (lines 140-145): a shifted and scaled
`Beta`, `Shift(low)(Scale(high - low)(Beta(...)))`; the composite is scalar
and is modelled atomically. -/
def substUniform : Dist → Dist
  | .uniform _ => .shiftScaleBeta "ShiftScaleBeta"
  | d => d

/-- Default substitution for `Exponential` (lines 146-148):
`Gamma(concentration=1., rate=dist.rate)`. -/
def substExponential : Dist → Dist
  | .exponential _ => .gamma "Gamma"
  | d => d

/-- Default substitution for `Chi2` (lines 149-151):
`Gamma(concentration=0.5 * dist.df, rate=0.5)`. -/
def substChi2 : Dist → Dist
  | .chi2 _ => .gamma "Gamma"
  | d => d

/-- The registry contents after module load: the four default rules,
registered in source order (HalfNormal, Uniform, Exponential, Chi2). -/
def defaultRegistry : Registry :=
  registerCfSubstitutionRule (.classCond .chi2C) substChi2
    (registerCfSubstitutionRule (.classCond .exponentialC) substExponential
      (registerCfSubstitutionRule (.classCond .uniformC) substUniform
        (registerCfSubstitutionRule (.classCond .halfNormalC) substHalfNormal
          { rules := [], nextWrapperId := 0 })))

/-! ### Trainable-parameter trees and the base-distribution builder -/

/-- The nested structure of trainable variables returned by
`_cf_surrogate_for_distribution`: a bijector for a base node, a list (one
entry per yielded node) for a joint node, mirroring
`dist._model_unflatten(...)` over the embedding's list-shaped models. -/
inductive VarTree where
  | leafV (b : Bij)
  | jointV (ts : List VarTree)
deriving Repr

mutual

/-- Identifiers of the chain objects contained in a variable tree, in
construction order. -/
def chainIds : VarTree → List Nat
  | .leafV (.chainOf objId _) => [objId]
  | .jointV ts => chainIdsList ts

/-- List version of `chainIds`. -/
def chainIdsList : List VarTree → List Nat
  | [] => []
  | t :: ts => chainIds t ++ chainIdsList ts

end

/-- The arguments bound by `build_cf_surrogate_posterior` into
`functools.partial(_cf_convex_update_for_base_distribution, ...)` (lines
255-258), together with the ambient substitution registry. -/
structure Config where
  registry : Registry
  initialPriorWeight : ℚ
  numAuxiliaryVariables : Nat

/-- Model of `int(actual_event_shape) if actual_event_shape.shape.as_list()[0] > 0
else 1` (lines 462-463): the scalar conversion succeeds only on a
one-element shape tensor; a rank-0 event uses 1; a rank >= 2 event raises. -/
def intEventShape (es : Shape) : Except String Nat :=
  if es.length > 0 then
    match es with
    | [d] => .ok d
    | _ => .error "TypeError: only size-1 arrays can be converted to Python scalars"
  else .ok 1

/-- Model of `_cf_convex_update_for_base_distribution` (lines 451-506).
Construction mode (`variables is None`) builds the chain of lines 460-483:
`Reshape([-1], event_shape_in=es + k)`, then `layers - 1 = 2` highway-flow
layers with an activation, then one without, then `Reshape(es + k)`; the
chain stores the list reversed, as `Chain(list(reversed(bijectors)))` does.
Note `es + k` adds `k` to every entry of the event-shape tensor.  The output
is the `Split`/`Blockwise` construction of lines 485-499 when
`num_auxiliary_variables > 0`, else `TransformedDistribution(dist, variables)`
(lines 501-504).  Returns (surrogate, variables, next allocation id). -/
def cfConvexUpdateForBaseDistribution (cfg : Config) (dist : Dist)
    (gav : Option Nat) (varsIn : Option Bij) (seed : Seed) (ctr : Nat) :
    Except String (Dist × Bij × Nat) := do
  let k := cfg.numAuxiliaryVariables
  let (vars, ctr2) ←
    match varsIn with
    | some v => Except.ok (v, ctr)
    | none => do
        let actualEventShape ← eventShapeTensor dist
        let intEv ← intEventShape actualEventShape
        let width := shapeSize (actualEventShape.map (· + k))
        let bijectors : List PrimBij :=
          [PrimBij.reshapeFlat (actualEventShape.map (· + k)),
           PrimBij.highwayFlowLayer width cfg.initialPriorWeight true intEv seed,
           PrimBij.highwayFlowLayer width cfg.initialPriorWeight true intEv seed,
           PrimBij.highwayFlowLayer width cfg.initialPriorWeight false intEv seed,
           PrimBij.reshapeTo (actualEventShape.map (· + k))]
        Except.ok (Bij.chainOf ctr bijectors.reverse, ctr + 1)
  if k > 0 then
    match gav with
    | none => Except.error "AttributeError: auxiliary variables were not sampled"
    | some kg =>
        Except.ok
          (Dist.split2 k (.transformed
              (.blockwise2 (.batchBroadcast dist) (.independentDeterministic kg))
              vars),
           vars, ctr2)
  else
    Except.ok (.transformed dist vars, vars, ctr2)

/-! ### The recursive graph walker

Fuel-based embedding of `_cf_surrogate_for_distribution` (lines 265-317),
`_cf_surrogate_for_joint_distribution` (lines 320-447) and its inner
`posterior_generator` (lines 330-406).  The generator is represented by the
list of (Root tag, surrogate) pairs it yields together with the variable
object attached to each yield; `_extract_variables_from_coroutine_model`
(lines 509-525) then corresponds to taking the second components.  Every
recursive call consumes one unit of fuel. -/

/-- Result of running `posterior_generator`: the yielded
(root-tag, surrogate distribution) pairs with each step's variables, and the
allocation counter after the run. -/
abbrev GenResult := List ((Bool × Dist) × VarTree) × Nat

mutual

/-- Model of `_cf_surrogate_for_distribution` (lines 265-317): apply the
substitution registry preserving the name (line 303), then dispatch on
`hasattr(dist, '_model_coroutine')` (line 305) to the joint builder or to
`base_distribution_surrogate_fn` (the partial application of
`_cf_convex_update_for_base_distribution`). -/
def cfSurrogateForDistribution : Nat → Config → Nat → Option VarTree →
    Option Nat → Seed → Nat → Dist → Except String (Dist × VarTree × Nat)
  | 0, _, _, _, _, _, _, _ => .error "OutOfFuel"
  | fuel+1, cfg, numAux, varsIn, gav, seed, ctr, dist =>
      let dist2 := setName (asSubstitutedDistribution cfg.registry.rules dist)
        (getName dist)
      match dist2 with
      | .jointD ab nm ns =>
          cfSurrogateForJointDistribution fuel cfg numAux varsIn gav seed ctr
            ab nm ns
      | d => do
          let vb ←
            match varsIn with
            | none => Except.ok none
            | some (.leafV b) => Except.ok (some b)
            | some (.jointV _) =>
                Except.error "TypeError: base distribution got structured variables"
          let (surrogate, vars, ctr2) ←
            cfConvexUpdateForBaseDistribution cfg d gav vb seed ctr
          Except.ok (surrogate, VarTree.leafV vars, ctr2)
termination_by structural fuel => fuel

/-- Model of `_cf_surrogate_for_joint_distribution` (lines 320-447).  With no
variables (lines 408-422): run the generator once to create variables, then
call ourselves again with the harvested structure — the recursive call's
`seed` argument is not passed, hence `None`.  With variables: run the
generator in reuse mode and wrap the yielded program as a joint distribution
named after the prior (lines 424-429); the commented-out structure check
(lines 431-446) is dead code and is not modelled.  Returns the surrogate, the
variable tree, and the allocation counter. -/
def cfSurrogateForJointDistribution : Nat → Config → Nat → Option VarTree →
    Option Nat → Seed → Nat → Bool → String → List (Bool × Dist) →
    Except String (Dist × VarTree × Nat)
  | 0, _, _, _, _, _, _, _, _, _ => .error "OutOfFuel"
  | fuel+1, cfg, numAux, varsIn, gav, seed, ctr, ab, nm, ns =>
      match varsIn with
      | none => do
          let (pairs, ctr1) ← posteriorGenerator fuel cfg numAux none gav seed ctr ns
          let harvested := pairs.map (fun p => p.2)
          let (pairs2, ctr2) ←
            posteriorGenerator fuel cfg numAux (some harvested) gav none ctr1 ns
          Except.ok (.jointD ab nm (pairs2.map (fun p => p.1)),
            VarTree.jointV harvested, ctr2)
      | some (.jointV vs) => do
          let (pairs2, ctr2) ←
            posteriorGenerator fuel cfg numAux (some vs) gav seed ctr ns
          Except.ok (.jointD ab nm (pairs2.map (fun p => p.1)),
            VarTree.jointV vs, ctr2)
      | some (.leafV _) =>
          .error "TypeError: joint distribution got a flat variable"
termination_by structural fuel => fuel

/-- Model of `posterior_generator` (lines 330-406).  An empty prior makes
`next(prior_gen)` raise, which PEP 479 turns into a RuntimeError.  When
`num_auxiliary_variables > 0` (lines 334-368), the generator first emits the
auxiliary node: a `TransformedDistribution` of `Sample(Normal(0., 0.1), k)`
through a freshly built (or reused, `flat_variables[0]`) 3-layer highway-flow
chain with `residual_fraction_initial_value=0.5`, `gate_first_n=0`, composed
in reverse order, wrapped as `Root`; the value sent back after that yield is
assigned to `global_auxiliary_variables` (line 368) and the node index
starts at 1.  Then the main loop runs over the prior's nodes.

CRUCIAL SCOPING POINT: the assignment at line 368 makes
`global_auxiliary_variables` a *local* of `posterior_generator`, shadowing
the enclosing function's parameter of the same name (modelled here as
`gav0`, which the generator consequently never reads).  When
`num_auxiliary_variables == 0` the assignment never runs, so the local is
unbound; the loop's read of it at line 384 then raises `UnboundLocalError`
on the first iteration.  The loop's `Option Nat` argument below models the
local's state: `some v` = assigned (to the auxiliary sample, abstracted by
its size), `none` = unassigned, and the `else` branch therefore passes
`none` — not `gav0`. -/
def posteriorGenerator : Nat → Config → Nat → Option (List VarTree) →
    Option Nat → Seed → Nat → List (Bool × Dist) → Except String GenResult
  | 0, _, _, _, _, _, _, _ => .error "OutOfFuel"
  | fuel+1, cfg, numAux, flatVariables, _gav0, seed, ctr, ns =>
      match ns with
      | [] => .error "RuntimeError: prior coroutine raised StopIteration"
      | _ :: _ =>
          if numAux > 0 then do
            let (auxBij, ctr1) ←
              match flatVariables with
              | some l =>
                  match l[0]? with
                  | some (VarTree.leafV b) => Except.ok (b, ctr)
                  | some (VarTree.jointV _) =>
                      Except.error "TypeError: auxiliary variables are structured"
                  | none => Except.error "IndexError: flat variables list is empty"
              | none =>
                  let bijectors : List PrimBij :=
                    [PrimBij.highwayFlowLayer numAux (1/2) true 0 seed,
                     PrimBij.highwayFlowLayer numAux (1/2) true 0 seed,
                     PrimBij.highwayFlowLayer numAux (1/2) false 0 seed]
                  Except.ok (Bij.chainOf ctr bijectors.reverse, ctr + 1)
            let eps : Dist :=
              .transformed (.sampleD (.normalD 0 (1/10)) numAux) auxBij
            let (pairs, ctr2) ←
              posteriorGeneratorLoop fuel cfg numAux flatVariables (some numAux)
                seed ctr1 1 ns
            Except.ok (((true, eps), VarTree.leafV auxBij) :: pairs, ctr2)
          else do
            let (pairs, ctr2) ←
              posteriorGeneratorLoop fuel cfg numAux flatVariables none seed ctr 0 ns
            Except.ok (pairs, ctr2)
termination_by structural fuel => fuel

/-- The main loop of `posterior_generator` (lines 373-406): for each node the
prior yields, read off and strip its `Root` tag, split the seed (line 379),
then evaluate the call of line 380 — its arguments in order: the
`flat_variables[i]` lookup (possible IndexError), then the read of the
generator-local `global_auxiliary_variables` (line 384), which raises
`UnboundLocalError` when the local is unassigned (`gav = none`, i.e. the
`num_auxiliary_variables > 0` branch never ran).  On success, build the
node's surrogate via `_cf_surrogate_for_distribution` (NOT passing
`num_auxiliary_variables`, so nested joints run with 0), re-wrap as `Root`
exactly when the node was a root and `num_auxiliary_variables == 0` (lines
387-388 — reachable only with the local assigned), yield, and advance the
prior with the sampled value. -/
def posteriorGeneratorLoop : Nat → Config → Nat → Option (List VarTree) →
    Option Nat → Seed → Nat → Nat → List (Bool × Dist) → Except String GenResult
  | 0, _, _, _, _, _, _, _, _ => .error "OutOfFuel"
  | _fuel+1, _, _, _, _, _, ctr, _, [] => .ok ([], ctr)
  | fuel+1, cfg, numAux, flatVariables, gav, seed, ctr, i, (wasRoot, d) :: rest => do
      let seeds := splitSeed seed
      let childVars ←
        match flatVariables with
        | some l =>
            match l[i]? with
            | some v => Except.ok (some v)
            | none => Except.error "IndexError: flat variables exhausted"
        | none => Except.ok none
      let gavLocal ←
        match gav with
        | some v => Except.ok (some v : Option Nat)
        | none =>
            Except.error "UnboundLocalError: local variable global_auxiliary_variables referenced before assignment"
      let (surrogate, vt, ctr2) ←
        cfSurrogateForDistribution fuel cfg 0 childVars gavLocal seeds.2 ctr d
      let isRoot := wasRoot && decide (numAux = 0)
      let (pairs, ctr3) ←
        posteriorGeneratorLoop fuel cfg numAux flatVariables gav seeds.1 ctr2
          (i + 1) rest
      Except.ok (((isRoot, surrogate), vt) :: pairs, ctr3)
termination_by structural fuel => fuel

end

/-- Model of `build_cf_surrogate_posterior` (lines 157-262): call
`_cf_surrogate_for_distribution` on the prior with the partially applied base
builder, no variables, and the given seed, returning the surrogate (which
tracks the variables, line 261) and the variables.  The function body
performs no type check on `prior`. -/
def buildCfSurrogatePosterior (fuel : Nat) (reg : Registry)
    (numAuxiliaryVariables : Nat) (initialPriorWeight : ℚ) (seed : Seed)
    (prior : Dist) : Except String (Dist × VarTree) :=
  (cfSurrogateForDistribution fuel
      { registry := reg, initialPriorWeight := initialPriorWeight,
        numAuxiliaryVariables := numAuxiliaryVariables }
      numAuxiliaryVariables none none seed 0 prior).map
    (fun r => (r.1, r.2.1))

/-! ### Structure observations used by the claims -/

/-- Structural summary of a joint distribution: for each node in yield order,
its `Root` tag and its event structure. -/
def summarize : Dist → Option (List (Bool × Except String EvStruct))
  | .jointD _ _ ns => some (ns.map (fun p => (p.1, evStruct p.2)))
  | _ => none

/-- Number of nodes a joint model declares (its `_model_flatten` length). -/
def nodeCount : Dist → Option Nat
  | .jointD _ _ ns => some ns.length
  | _ => none

/-- Whether an `Except` result is a success. -/
def isOkE : Except String (Dist × VarTree) → Bool
  | .ok _ => true
  | .error _ => false

/-- Leaf (non-joint, non-meta) distributions a prior program may yield. -/
def isPriorLeaf : Dist → Bool
  | .base _ _ => true
  | .halfNormal _ => true
  | .uniform _ => true
  | .exponential _ => true
  | .chi2 _ => true
  | .truncatedNormal _ => true
  | .gamma _ => true
  | .shiftScaleBeta _ => true
  | .normalD _ _ => true
  | _ => false

/-- The event shape a prior leaf declares (scalar families have event
shape `[]`). -/
def declaredEventShape : Dist → Shape
  | .base _ es => es
  | _ => []

/-- Substitution with name preservation, as performed at line 303, with the
default registry. -/
def defaultSubstNamed (d : Dist) : Dist :=
  setName (asSubstitutedDistribution defaultRegistry.rules d) (getName d)

/-- The configuration `build_cf_surrogate_posterior` passes down when the
ambient registry holds the default rules. -/
def cfgD (k : Nat) (w : ℚ) : Config :=
  { registry := defaultRegistry, initialPriorWeight := w,
    numAuxiliaryVariables := k }

/-- The `gate_first_n` value `_cf_convex_update_for_base_distribution`
computes for an event shape of rank at most 1. -/
def gateOf : Shape → Nat
  | [] => 1
  | n :: _ => n

/-- The chain `_cf_convex_update_for_base_distribution` builds in
construction mode for a leaf with event shape `es` (stored in application
order reversed, as `Chain` does). -/
def leafChain (k : Nat) (w : ℚ) (es : Shape) (seed : Seed) (objId : Nat) : Bij :=
  Bij.chainOf objId
    [PrimBij.reshapeTo (es.map (· + k)),
     PrimBij.highwayFlowLayer (shapeSize (es.map (· + k))) w false (gateOf es) seed,
     PrimBij.highwayFlowLayer (shapeSize (es.map (· + k))) w true (gateOf es) seed,
     PrimBij.highwayFlowLayer (shapeSize (es.map (· + k))) w true (gateOf es) seed,
     PrimBij.reshapeFlat (es.map (· + k))]

/-- The chain the auxiliary-variable branch of `posterior_generator` builds
(3 highway-flow layers, residual fraction 0.5, nothing exempted from gating,
stored reversed). -/
def auxChain (k : Nat) (seed : Seed) (objId : Nat) : Bij :=
  Bij.chainOf objId
    [PrimBij.highwayFlowLayer k (1/2) false 0 seed,
     PrimBij.highwayFlowLayer k (1/2) true 0 seed,
     PrimBij.highwayFlowLayer k (1/2) true 0 seed]

/-- The auxiliary node `posterior_generator` emits: `k`-dimensional
0.1-scale zero-mean normal noise pushed through the auxiliary chain. -/
def auxEps (k : Nat) (seed : Seed) (objId : Nat) : Dist :=
  .transformed (.sampleD (.normalD 0 (1/10)) k) (auxChain k seed objId)

/-- The surrogate `_cf_convex_update_for_base_distribution` returns for a
(substituted) leaf `d` and trainable chain `v`. -/
def baseSurrogate (k : Nat) (gav : Option Nat) (d : Dist) (v : Bij) : Dist :=
  if k > 0 then
    .split2 k (.transformed
      (.blockwise2 (.batchBroadcast d) (.independentDeterministic (gav.getD 0))) v)
  else .transformed d v

/-- The (root tag, surrogate, variables) sequence the generator's main loop
produces over a list of leaf prior nodes in construction mode: one freshly
built chain per node, consecutive allocation identifiers, seeds split once
per step. -/
def harvestPairs (k : Nat) (w : ℚ) (kj : Nat) (gav : Option Nat) :
    Seed → Nat → List (Bool × Dist) → List ((Bool × Dist) × VarTree)
  | _, _, [] => []
  | seed, ctr, (wasRoot, d) :: rest =>
      let d2 := defaultSubstNamed d
      let ch := leafChain k w (declaredEventShape d2) (splitSeed seed).2 ctr
      ((wasRoot && decide (kj = 0), baseSurrogate k gav d2 ch), VarTree.leafV ch)
        :: harvestPairs k w kj gav (splitSeed seed).1 (ctr + 1) rest

/-- The full yield sequence of `posterior_generator` in construction mode
over a leaf-only prior: the auxiliary root node first when `k > 0`, then one
surrogate per prior node. -/
def genSpec (k : Nat) (w : ℚ) (gav0 : Option Nat) (seed : Seed) (ctr : Nat)
    (ns : List (Bool × Dist)) : List ((Bool × Dist) × VarTree) :=
  if k = 0 then harvestPairs 0 w 0 gav0 seed ctr ns
  else ((true, auxEps k seed ctr), VarTree.leafV (auxChain k seed ctr))
    :: harvestPairs k w k (some k) seed (ctr + 1) ns

/-- Number of construction sites the generator visits over a leaf-only
prior: one per node, plus one for the auxiliary variables when `k > 0`. -/
def genSpecCount (k : Nat) (ns : List (Bool × Dist)) : Nat :=
  ns.length + (if k = 0 then 0 else 1)

/-- The structural summary the claims predict for the surrogate of a
leaf-only prior: with `k = 0`, the original tags and event shapes in order;
with `k > 0`, a leading root node of event size `k` followed by two-part
split nodes whose first part has the original (flattened) event size. -/
def expectedSummary (k : Nat) (ns : List (Bool × Dist)) :
    List (Bool × Except String EvStruct) :=
  if k = 0 then
    ns.map (fun p => (p.1, Except.ok (.single (declaredEventShape p.2))))
  else
    (true, Except.ok (.single [k])) ::
      ns.map (fun p => (false, Except.ok (.tuple
        [.single [shapeSize (declaredEventShape p.2)], .single [k]])))

/-! ## Theorems -/

/-- Registering a rule under a callable key always leaves an entry with that
key in the table. -/
theorem register_callable_mem (reg : Registry) (keyId : Nat) (p : Dist → Bool)
    (f : Dist → Dist) :
    ((registerCfSubstitutionRule (.callableCond keyId p) f reg).rules.any
      (fun r => r.key == RuleKey.callableKey keyId)) = true := by
  unfold registerCfSubstitutionRule
  by_cases h : reg.rules.any (fun r => r.key == RuleKey.callableKey keyId)
  · simp only [h, if_true]
    simp only [List.any_map]
    have hfun : ((fun r : Rule => r.key == RuleKey.callableKey keyId) ∘
        (fun r : Rule => if r.key == RuleKey.callableKey keyId then
          { key := r.key, condition := r.condition, substitutionFn := f } else r))
        = (fun r : Rule => r.key == RuleKey.callableKey keyId) := by
      funext r
      by_cases hr : r.key == RuleKey.callableKey keyId <;> simp [Function.comp, hr]
    rw [hfun]
    exact h
  · simp only [h, if_false]
    simp [List.any_append]

/--
C5: `_as_substituted_distribution` applies every rule whose condition matches
the current (successively substituted) node, visiting rules in registration
(insertion) order, so matching rules fire cumulatively: applying a
concatenated rule list equals applying the first part and then the second;
a single rule replaces the node by `substitution_fn(node)` exactly when its
condition holds; the empty table is the identity.
-/
theorem c5_substitution_application :
    (∀ (rules1 rules2 : List Rule) (d : Dist),
      asSubstitutedDistribution (rules1 ++ rules2) d
        = asSubstitutedDistribution rules2 (asSubstitutedDistribution rules1 d))
    ∧ (∀ (r : Rule) (rules : List Rule) (d : Dist),
      asSubstitutedDistribution (r :: rules) d
        = asSubstitutedDistribution rules
            (if r.condition d then r.substitutionFn d else d))
    ∧ (∀ d : Dist, asSubstitutedDistribution [] d = d) := by
  refine ⟨fun rules1 rules2 d => ?_, fun r rules d => rfl, fun d => rfl⟩
  simp [asSubstitutedDistribution, List.foldl_append]

/--
C10: `register_cf_substitution_rule` wraps a class condition in a freshly
created lambda, so registering the same class twice inserts two distinct
entries that both fire (cumulatively) on matching nodes, while registering
the exact same callable twice overwrites the existing entry in place.
-/
theorem c10_registration_semantics :
    (∀ (reg : Registry) (c : DistClass) (f1 f2 : Dist → Dist),
      let reg1 := registerCfSubstitutionRule (.classCond c) f1 reg
      let reg2 := registerCfSubstitutionRule (.classCond c) f2 reg1
      reg2.rules.length = reg.rules.length + 2
      ∧ reg2.rules.map Rule.key
          = reg.rules.map Rule.key
            ++ [RuleKey.wrapperKey reg.nextWrapperId,
                RuleKey.wrapperKey (reg.nextWrapperId + 1)]
      ∧ RuleKey.wrapperKey reg.nextWrapperId
          ≠ RuleKey.wrapperKey (reg.nextWrapperId + 1)
      ∧ ∀ d, asSubstitutedDistribution reg2.rules d
          = (let d1 := asSubstitutedDistribution reg.rules d
             let d2 := if isinstanceOf d1 c then f1 d1 else d1
             if isinstanceOf d2 c then f2 d2 else d2))
    ∧ (∀ (reg : Registry) (keyId : Nat) (p : Dist → Bool) (f1 f2 : Dist → Dist),
      let reg1 := registerCfSubstitutionRule (.callableCond keyId p) f1 reg
      let reg2 := registerCfSubstitutionRule (.callableCond keyId p) f2 reg1
      reg2.rules.length = reg1.rules.length
      ∧ reg2.rules = reg1.rules.map (fun r =>
          if r.key == RuleKey.callableKey keyId then
            { key := r.key, condition := r.condition, substitutionFn := f2 }
          else r)) := by
  constructor
  · intro reg c f1 f2
    refine ⟨by simp [registerCfSubstitutionRule], ?_, by simp, ?_⟩
    · simp [registerCfSubstitutionRule]
    · intro d
      simp [registerCfSubstitutionRule, asSubstitutedDistribution,
        List.foldl_append]
  · intro reg keyId p f1 f2
    have hany := register_callable_mem reg keyId p f1
    have hover : ∀ (r2 : Registry) (f : Dist → Dist),
        (r2.rules.any fun r => r.key == RuleKey.callableKey keyId) = true →
        registerCfSubstitutionRule (.callableCond keyId p) f r2
          = { r2 with rules := r2.rules.map (fun r =>
              if r.key == RuleKey.callableKey keyId then
                { key := r.key, condition := r.condition, substitutionFn := f }
              else r) } := by
      intro r2 f h
      simp only [registerCfSubstitutionRule, h, if_true]
    intro reg1 reg2
    show reg2.rules.length = reg1.rules.length ∧ _
    rw [show reg2 = _ from hover reg1 f2 hany]
    exact ⟨by simp, rfl⟩

/-- The default substitution rules preserve prior leaves: the substituted,
renamed node is again a leaf, with the same declared event shape and the same
event structure. -/
theorem substNamed_leaf (d : Dist) (h : isPriorLeaf d = true) :
    isPriorLeaf (defaultSubstNamed d) = true
    ∧ declaredEventShape (defaultSubstNamed d) = declaredEventShape d
    ∧ evStruct (defaultSubstNamed d) = .ok (.single (declaredEventShape d))
    ∧ eventShapeTensor (defaultSubstNamed d) = .ok (declaredEventShape d)
    ∧ evStruct d = .ok (.single (declaredEventShape d)) := by
  cases d <;> first
    | exact ⟨rfl, rfl, rfl, rfl, rfl⟩
    | simp [isPriorLeaf] at h

/-- The default substitution rules leave a joint node unchanged (every class
condition tests `isinstance` against a scalar family). -/
theorem substNamed_joint (ab : Bool) (nm : String) (ns : List (Bool × Dist)) :
    defaultSubstNamed (.jointD ab nm ns) = .jointD ab nm ns := rfl

/-- Bind on a success reduces. -/
theorem ok_bind {α β : Type} (a : α) (f : α → Except String β) :
    (Except.ok a >>= f) = f a := rfl

/-- Bind on a failure propagates the failure. -/
theorem error_bind {α β : Type} (e : String) (f : α → Except String β) :
    ((Except.error e : Except String α) >>= f) = .error e := rfl

/-- Map on a success reduces. -/
theorem ok_map {α β : Type} (a : α) (f : α → β) :
    (Except.ok a : Except String α).map f = .ok (f a) := rfl

/-- Map on a failure propagates the failure. -/
theorem error_map {α β : Type} (e : String) (f : α → β) :
    (Except.error e : Except String α).map f = .error e := rfl

/-- Reuse mode of the base-distribution builder: when a chain is supplied it
is used verbatim, no allocation happens, and the surrogate is the
`Split`/`Blockwise` construction (`k > 0`) or a plain transform (`k = 0`). -/
theorem convexUpdate_supplied (cfg : Config) (d : Dist) (gav : Option Nat)
    (v : Bij) (seed : Seed) (ctr : Nat)
    (hgav : 0 < cfg.numAuxiliaryVariables → gav.isSome = true) :
    cfConvexUpdateForBaseDistribution cfg d gav (some v) seed ctr
      = .ok (baseSurrogate cfg.numAuxiliaryVariables gav d v, v, ctr) := by
  unfold cfConvexUpdateForBaseDistribution baseSurrogate
  by_cases hk : cfg.numAuxiliaryVariables > 0
  · obtain ⟨kg, hkg⟩ : ∃ kg, gav = some kg := by
      cases gav with
      | none => simp at hgav; omega
      | some kg => exact ⟨kg, rfl⟩
    subst hkg
    simp only [ok_bind, hk, if_true]
    rfl
  · simp only [ok_bind, hk, if_false]

/-- Reuse mode never allocates, whatever the result: if the builder succeeds
it returns the supplied chain unchanged and the counter untouched. -/
theorem convexUpdate_supplied_noalloc (cfg : Config) (d : Dist)
    (gav : Option Nat) (v : Bij) (seed : Seed) (ctr : Nat)
    (s : Dist) (vo : Bij) (c2 : Nat)
    (h : cfConvexUpdateForBaseDistribution cfg d gav (some v) seed ctr
      = .ok (s, vo, c2)) : vo = v ∧ c2 = ctr := by
  by_cases hk : cfg.numAuxiliaryVariables > 0
  · cases gav with
    | none =>
        unfold cfConvexUpdateForBaseDistribution at h
        simp only [ok_bind, hk, if_true] at h
        exact Except.noConfusion h
    | some kg =>
        rw [convexUpdate_supplied cfg d (some kg) v seed ctr (fun _ => rfl)] at h
        simp only [Except.ok.injEq, Prod.mk.injEq] at h
        exact ⟨h.2.1.symm, h.2.2.symm⟩
  · rw [convexUpdate_supplied cfg d gav v seed ctr (fun hx => absurd hx hk)] at h
    simp only [Except.ok.injEq, Prod.mk.injEq] at h
    exact ⟨h.2.1.symm, h.2.2.symm⟩

/-- Construction mode of the base-distribution builder on an event shape of
rank at most 1: it allocates exactly the chain described by `leafChain`
(reshape-to-flat, two gated layers with activation, one without, reshape
back, stored reversed; `gate_first_n` is the event size, or 1 at rank 0). -/
theorem convexUpdate_construction (cfg : Config) (d : Dist) (gav : Option Nat)
    (seed : Seed) (ctr : Nat) (es : Shape)
    (hes : eventShapeTensor d = .ok es)
    (hrank : es = [] ∨ ∃ n, es = [n])
    (hgav : 0 < cfg.numAuxiliaryVariables → gav.isSome = true) :
    cfConvexUpdateForBaseDistribution cfg d gav none seed ctr
      = .ok (baseSurrogate cfg.numAuxiliaryVariables gav d
              (leafChain cfg.numAuxiliaryVariables cfg.initialPriorWeight es seed ctr),
             leafChain cfg.numAuxiliaryVariables cfg.initialPriorWeight es seed ctr,
             ctr + 1) := by
  have hint : intEventShape es = .ok (gateOf es) := by
    rcases hrank with rfl | ⟨n, rfl⟩ <;> rfl
  unfold cfConvexUpdateForBaseDistribution baseSurrogate leafChain
  by_cases hk : cfg.numAuxiliaryVariables > 0
  · obtain ⟨kg, hkg⟩ : ∃ kg, gav = some kg := by
      cases gav with
      | none => simp at hgav; omega
      | some kg => exact ⟨kg, rfl⟩
    subst hkg
    simp only [hes, ok_bind, hint, hk, if_true]
    rfl
  · simp only [hes, ok_bind, hint, hk, if_false]
    rfl

/-- Binding a success continuation that wraps in `ok` is a map. -/
theorem bind_ok_eq_map {α β : Type} (e : Except String α) (f : α → β) :
    (e >>= fun a => Except.ok (f a)) = e.map f := by
  cases e <;> rfl

/-- Dispatch of `_cf_surrogate_for_distribution` on a prior leaf (under the
default registry): the substituted, renamed node goes to the base builder. -/
theorem surrForDist_leaf (fuel : Nat) (k : Nat) (w : ℚ) (numAux : Nat)
    (vb : Option Bij) (gav : Option Nat) (seed : Seed) (ctr : Nat) (d : Dist)
    (hleaf : isPriorLeaf d = true) :
    cfSurrogateForDistribution (fuel+1) (cfgD k w) numAux
        (vb.map VarTree.leafV) gav seed ctr d
      = (cfConvexUpdateForBaseDistribution (cfgD k w) (defaultSubstNamed d) gav
          vb seed ctr).map (fun r => (r.1, VarTree.leafV r.2.1, r.2.2)) := by
  cases vb <;> cases d <;>
    first
      | apply bind_ok_eq_map
      | (simp [isPriorLeaf] at hleaf)

/-- Construction-mode run of the generator's main loop over a leaf-only
prior with event ranks at most 1, with the generator-local
`global_auxiliary_variables` assigned (as it is whenever the loop can run at
all): it succeeds, allocates one chain per node with consecutive
identifiers, and yields exactly `harvestPairs`. -/
theorem genLoop_harvest (k : Nat) (w : ℚ) (kj : Nat) (gav : Option Nat)
    (hgav : gav.isSome = true) :
    ∀ (ns : List (Bool × Dist)) (fuel : Nat) (seed : Seed) (ctr i : Nat),
      (∀ p ∈ ns, isPriorLeaf p.2 = true ∧ (declaredEventShape p.2).length ≤ 1) →
      ns.length + 1 ≤ fuel →
      posteriorGeneratorLoop fuel (cfgD k w) kj none gav seed ctr i ns
        = .ok (harvestPairs k w kj gav seed ctr ns, ctr + ns.length) := by
  obtain ⟨g, rfl⟩ : ∃ g, gav = some g := by
    cases gav with
    | none => simp at hgav
    | some g => exact ⟨g, rfl⟩
  intro ns
  induction ns with
  | nil =>
      intro fuel seed ctr i hleaf hfuel
      obtain ⟨f, rfl⟩ : ∃ f, fuel = f + 1 := ⟨fuel - 1, by omega⟩
      rfl
  | cons p rest ih =>
      intro fuel seed ctr i hleaf hfuel
      obtain ⟨wasRoot, d⟩ := p
      obtain ⟨f, rfl⟩ : ∃ f, fuel = f + 1 := ⟨fuel - 1, by omega⟩
      obtain ⟨f2, rfl⟩ : ∃ f2, f = f2 + 1 := ⟨f - 1, by simp at hfuel; omega⟩
      have hl := hleaf (wasRoot, d) (List.mem_cons_self _ _)
      have hsub := substNamed_leaf d hl.1
      have hrank : declaredEventShape d = [] ∨ ∃ n, declaredEventShape d = [n] := by
        rcases hde : declaredEventShape d with _ | ⟨n, t⟩
        · exact Or.inl rfl
        · rcases t with _ | ⟨m, t2⟩
          · exact Or.inr ⟨n, rfl⟩
          · rw [hde] at hl; simp at hl
      have hchild := surrForDist_leaf f2 k w 0 none (some g) (splitSeed seed).2 ctr d hl.1
      simp only [Option.map_none'] at hchild
      have hconv := convexUpdate_construction (cfgD k w) (defaultSubstNamed d) (some g)
        (splitSeed seed).2 ctr (declaredEventShape d) hsub.2.2.2.1 hrank (fun _ => rfl)
      rw [hconv] at hchild
      simp only [ok_map] at hchild
      have hrest : rest.length + 1 ≤ f2 + 1 := by simp at hfuel; omega
      have hihr := ih (f2 + 1) (splitSeed seed).1 (ctr + 1) (i + 1)
        (fun q hq => hleaf q (List.mem_cons_of_mem _ hq)) hrest
      simp only [posteriorGeneratorLoop, ok_bind, hchild, hihr]
      simp only [harvestPairs, hsub.2.1]
      have : ctr + 1 + rest.length = ctr + (rest.length + 1) := by omega
      rw [this]
      rfl

/-- Reuse-mode run of the generator's main loop over a leaf-only prior,
supplied with the flat variables a harvest run produced (behind an arbitrary
prefix aligned with the starting index): it yields exactly the same pairs as
the harvest run, allocates nothing, and ignores its own seed. -/
theorem genLoop_reuse (k : Nat) (w : ℚ) (kj : Nat) (gav : Option Nat)
    (hgav : gav.isSome = true) :
    ∀ (ns : List (Bool × Dist)) (pre : List VarTree) (fuel : Nat)
      (hseed : Seed) (hctr : Nat) (seed : Seed) (ctr : Nat),
      (∀ p ∈ ns, isPriorLeaf p.2 = true) →
      ns.length + 1 ≤ fuel →
      posteriorGeneratorLoop fuel (cfgD k w) kj
          (some (pre ++ (harvestPairs k w kj gav hseed hctr ns).map Prod.snd))
          gav seed ctr pre.length ns
        = .ok (harvestPairs k w kj gav hseed hctr ns, ctr) := by
  obtain ⟨g, rfl⟩ : ∃ g, gav = some g := by
    cases gav with
    | none => simp at hgav
    | some g => exact ⟨g, rfl⟩
  intro ns
  induction ns with
  | nil =>
      intro pre fuel hseed hctr seed ctr hleaf hfuel
      obtain ⟨f, rfl⟩ : ∃ f, fuel = f + 1 := ⟨fuel - 1, by omega⟩
      rfl
  | cons p rest ih =>
      intro pre fuel hseed hctr seed ctr hleaf hfuel
      obtain ⟨wasRoot, d⟩ := p
      obtain ⟨f, rfl⟩ : ∃ f, fuel = f + 1 := ⟨fuel - 1, by omega⟩
      obtain ⟨f2, rfl⟩ : ∃ f2, f = f2 + 1 := ⟨f - 1, by simp at hfuel; omega⟩
      have hl := hleaf (wasRoot, d) (List.mem_cons_self _ _)
      have hhead : harvestPairs k w kj (some g) hseed hctr ((wasRoot, d) :: rest)
          = ((wasRoot && decide (kj = 0),
              baseSurrogate k (some g) (defaultSubstNamed d)
                (leafChain k w (declaredEventShape (defaultSubstNamed d))
                  (splitSeed hseed).2 hctr)),
             VarTree.leafV (leafChain k w (declaredEventShape (defaultSubstNamed d))
               (splitSeed hseed).2 hctr))
            :: harvestPairs k w kj (some g) (splitSeed hseed).1 (hctr + 1) rest := rfl
      set ch := leafChain k w (declaredEventShape (defaultSubstNamed d))
        (splitSeed hseed).2 hctr with hch
      have hget : (pre ++ (harvestPairs k w kj (some g) hseed hctr
            ((wasRoot, d) :: rest)).map Prod.snd)[pre.length]?
          = some (VarTree.leafV ch) := by
        rw [List.getElem?_append_right (Nat.le_refl _)]
        simp [hhead]
      have hchild := surrForDist_leaf f2 k w 0 (some ch) (some g) (splitSeed seed).2 ctr d hl
      simp only [Option.map_some'] at hchild
      rw [convexUpdate_supplied (cfgD k w) (defaultSubstNamed d) (some g) ch
        (splitSeed seed).2 ctr (fun _ => rfl)] at hchild
      simp only [ok_map] at hchild
      have hihr : posteriorGeneratorLoop (f2 + 1) (cfgD k w) kj
          (some ((pre ++ [VarTree.leafV ch])
            ++ (harvestPairs k w kj (some g) (splitSeed hseed).1 (hctr + 1) rest).map Prod.snd))
          (some g) (splitSeed seed).1 ctr (pre ++ [VarTree.leafV ch]).length rest
          = .ok (harvestPairs k w kj (some g) (splitSeed hseed).1 (hctr + 1) rest, ctr) :=
        ih (pre ++ [VarTree.leafV ch]) (f2 + 1) (splitSeed hseed).1 (hctr + 1)
          (splitSeed seed).1 ctr
          (fun q hq => hleaf q (List.mem_cons_of_mem _ hq))
          (by simp at hfuel; omega)
      rw [List.length_append, List.length_cons, List.length_nil, Nat.zero_add,
        ← List.append_cons] at hihr
      rw [hhead] at hget
      simp only [List.map_cons] at hget
      simp only [posteriorGeneratorLoop, hhead, List.map_cons]
      rw [hget]
      simp only [ok_bind, hchild]
      rw [hihr]
      rfl

/-- Construction-mode run of `posterior_generator` over a nonempty leaf-only
prior (with the joint-level auxiliary count equal to the configured one, as
`build_cf_surrogate_posterior` arranges): it yields `genSpec` and allocates
`genSpecCount` chains. -/
theorem postGen_harvest (k : Nat) (w : ℚ) (gav0 : Option Nat)
    (ns : List (Bool × Dist)) (fuel : Nat) (seed : Seed) (ctr : Nat)
    (hk : 0 < k)
    (hne : ns ≠ [])
    (hleaf : ∀ p ∈ ns, isPriorLeaf p.2 = true ∧ (declaredEventShape p.2).length ≤ 1)
    (hfuel : ns.length + 2 ≤ fuel) :
    posteriorGenerator fuel (cfgD k w) k none gav0 seed ctr ns
      = .ok (genSpec k w gav0 seed ctr ns, ctr + genSpecCount k ns) := by
  obtain ⟨f, rfl⟩ : ∃ f, fuel = f + 1 := ⟨fuel - 1, by omega⟩
  obtain ⟨n0, rest, rfl⟩ : ∃ n0 rest, ns = n0 :: rest := by
    cases ns with
    | nil => exact absurd rfl hne
    | cons a t => exact ⟨a, t, rfl⟩
  have hk0 : ¬ k = 0 := by omega
  have hloop := genLoop_harvest k w k (some k) rfl (n0 :: rest) f
    seed (ctr + 1) 1 hleaf (by simp at hfuel ⊢; omega)
  simp only [posteriorGenerator, gt_iff_lt, hk, if_true, ok_bind, hloop]
  simp only [genSpec, genSpecCount, hk0, if_false, auxEps, auxChain]
  have : ctr + 1 + (n0 :: rest).length = ctr + ((n0 :: rest).length + 1) := by
    omega
  rw [this]
  rfl

/-- A `num_auxiliary_variables == 0` run of `posterior_generator` over a
nonempty prior in construction mode raises `UnboundLocalError` on the first
loop iteration: the generator-local `global_auxiliary_variables` is assigned
only inside the `num_auxiliary_variables > 0` branch (line 368), so the read
at line 384 finds it unbound. -/
theorem postGen_unbound (cfg : Config) (gav0 : Option Nat) (seed : Seed)
    (ctr : Nat) (wr : Bool) (d0 : Dist) (rest : List (Bool × Dist))
    (fuel : Nat) (hfuel : 2 ≤ fuel) :
    posteriorGenerator fuel cfg 0 none gav0 seed ctr ((wr, d0) :: rest)
      = .error
        "UnboundLocalError: local variable global_auxiliary_variables referenced before assignment" := by
  obtain ⟨f, rfl⟩ : ∃ f, fuel = f + 1 := ⟨fuel - 1, by omega⟩
  obtain ⟨f2, rfl⟩ : ∃ f2, f = f2 + 1 := ⟨f - 1, by omega⟩
  rfl

/-- Reuse-mode run of `posterior_generator` over a nonempty leaf-only prior,
supplied with the flat variables extracted from a construction run: it yields
the same pairs, allocates nothing, and its own seed is irrelevant. -/
theorem postGen_reuse (k : Nat) (w : ℚ) (gav0 : Option Nat)
    (ns : List (Bool × Dist)) (fuel : Nat) (hseed : Seed) (hctr : Nat)
    (seed : Seed) (ctr : Nat)
    (hk : 0 < k)
    (hne : ns ≠ [])
    (hleaf : ∀ p ∈ ns, isPriorLeaf p.2 = true)
    (hfuel : ns.length + 2 ≤ fuel) :
    posteriorGenerator fuel (cfgD k w) k
        (some ((genSpec k w gav0 hseed hctr ns).map Prod.snd)) gav0 seed ctr ns
      = .ok (genSpec k w gav0 hseed hctr ns, ctr) := by
  obtain ⟨f, rfl⟩ : ∃ f, fuel = f + 1 := ⟨fuel - 1, by omega⟩
  obtain ⟨n0, rest, rfl⟩ : ∃ n0 rest, ns = n0 :: rest := by
    cases ns with
    | nil => exact absurd rfl hne
    | cons a t => exact ⟨a, t, rfl⟩
  have hk0 : ¬ k = 0 := by omega
  have hloop := genLoop_reuse k w k (some k) rfl (n0 :: rest)
    [VarTree.leafV (auxChain k hseed hctr)] f hseed (hctr + 1) seed ctr hleaf
    (by simp at hfuel ⊢; omega)
  simp only [List.singleton_append, List.length_cons, List.length_nil] at hloop
  simp only [genSpec, hk0, if_false] at hloop ⊢
  simp only [posteriorGenerator, gt_iff_lt, hk, if_true, List.map_cons,
    List.getElem?_cons_zero, ok_bind]
  rw [hloop]
  rfl

/-- `_cf_surrogate_for_joint_distribution` on a nonempty leaf-only prior with
no variables: harvest once, rebuild with the harvested variables (and a
`None` seed, as the recursive call drops `seed`), and return the joint
surrogate whose nodes are the `genSpec` surrogates, the harvested variable
tree, and the advanced allocation counter. -/
theorem surrForJoint_leafModel (k : Nat) (w : ℚ) (ab : Bool) (nm : String)
    (gav0 : Option Nat) (ns : List (Bool × Dist)) (fuel : Nat) (seed : Seed)
    (ctr : Nat)
    (hk : 0 < k)
    (hne : ns ≠ [])
    (hleaf : ∀ p ∈ ns, isPriorLeaf p.2 = true ∧ (declaredEventShape p.2).length ≤ 1)
    (hfuel : ns.length + 3 ≤ fuel) :
    cfSurrogateForJointDistribution fuel (cfgD k w) k none gav0 seed ctr ab nm ns
      = .ok (.jointD ab nm ((genSpec k w gav0 seed ctr ns).map Prod.fst),
             .jointV ((genSpec k w gav0 seed ctr ns).map Prod.snd),
             ctr + genSpecCount k ns) := by
  obtain ⟨f, rfl⟩ : ∃ f, fuel = f + 1 := ⟨fuel - 1, by omega⟩
  have hharv := postGen_harvest k w gav0 ns f seed ctr hk hne hleaf (by omega)
  have hreuse := postGen_reuse k w gav0 ns f seed ctr none
    (ctr + genSpecCount k ns) hk hne (fun p hp => (hleaf p hp).1) (by omega)
  simp only [cfSurrogateForJointDistribution, hharv, ok_bind, hreuse]

/-- `build_cf_surrogate_posterior` on a nonempty leaf-only prior model under
the default registry: the surrogate is a joint with the `genSpec` nodes and
the harvested variables. -/
theorem build_leafModel (k : Nat) (w : ℚ) (ab : Bool) (nm : String)
    (ns : List (Bool × Dist)) (fuel : Nat) (seed : Seed)
    (hk : 0 < k)
    (hne : ns ≠ [])
    (hleaf : ∀ p ∈ ns, isPriorLeaf p.2 = true ∧ (declaredEventShape p.2).length ≤ 1)
    (hfuel : ns.length + 4 ≤ fuel) :
    buildCfSurrogatePosterior fuel defaultRegistry k w seed (.jointD ab nm ns)
      = .ok (.jointD ab nm ((genSpec k w none seed 0 ns).map Prod.fst),
             .jointV ((genSpec k w none seed 0 ns).map Prod.snd)) := by
  obtain ⟨f, rfl⟩ : ∃ f, fuel = f + 1 := ⟨fuel - 1, by omega⟩
  have hbridge : buildCfSurrogatePosterior (f + 1) defaultRegistry k w seed
      (.jointD ab nm ns)
      = (cfSurrogateForDistribution (f + 1) (cfgD k w) k none none seed 0
          (.jointD ab nm ns)).map (fun r => (r.1, r.2.1)) := rfl
  have hjoint := surrForJoint_leafModel k w ab nm none ns f seed 0 hk hne hleaf
    (by omega)
  rw [hbridge]
  have hred : cfSurrogateForDistribution (f + 1) (cfgD k w) k none none seed 0
      (.jointD ab nm ns)
      = cfSurrogateForJointDistribution f (cfgD k w) k none none seed 0 ab nm ns :=
    rfl
  rw [hred, hjoint]
  rfl

/-- `build_cf_surrogate_posterior` with `num_auxiliary_variables = 0` (the
default) on any nonempty joint prior raises `UnboundLocalError`: the
harvest run of `posterior_generator` reads the unassigned generator-local
`global_auxiliary_variables` on its first loop iteration (line 384) and the
error propagates out of the build. -/
theorem build_unbound (w : ℚ) (ab : Bool) (nm : String) (wr : Bool)
    (d0 : Dist) (rest : List (Bool × Dist)) (fuel : Nat) (seed : Seed)
    (hfuel : 4 ≤ fuel) :
    buildCfSurrogatePosterior fuel defaultRegistry 0 w seed
        (.jointD ab nm ((wr, d0) :: rest))
      = .error
        "UnboundLocalError: local variable global_auxiliary_variables referenced before assignment" := by
  obtain ⟨f, rfl⟩ : ∃ f, fuel = f + 1 := ⟨fuel - 1, by omega⟩
  have hbridge : buildCfSurrogatePosterior (f + 1) defaultRegistry 0 w seed
      (.jointD ab nm ((wr, d0) :: rest))
      = (cfSurrogateForDistribution (f + 1) (cfgD 0 w) 0 none none seed 0
          (.jointD ab nm ((wr, d0) :: rest))).map (fun r => (r.1, r.2.1)) := rfl
  have hred : cfSurrogateForDistribution (f + 1) (cfgD 0 w) 0 none none seed 0
      (.jointD ab nm ((wr, d0) :: rest))
      = cfSurrogateForJointDistribution f (cfgD 0 w) 0 none none seed 0 ab nm
          ((wr, d0) :: rest) := rfl
  obtain ⟨f2, rfl⟩ : ∃ f2, f = f2 + 1 := ⟨f - 1, by omega⟩
  have hgen := postGen_unbound (cfgD 0 w) none seed 0 wr d0 rest f2
    (by omega)
  rw [hbridge, hred]
  simp only [cfSurrogateForJointDistribution, hgen, error_bind, error_map]

/-- With `k = 0` the surrogate of a leaf with event rank at most 1 is a
transform whose event structure equals the leaf's: the chain flattens the
event, applies the shape-preserving gated layers, and reshapes back. -/
theorem evStruct_baseSurrogate_zero (gav0 : Option Nat) (w : ℚ) (sd : Seed)
    (objId : Nat) (d2 : Dist) (es : Shape)
    (hev : evStruct d2 = .ok (.single es))
    (hrank : es = [] ∨ ∃ n, es = [n]) :
    evStruct (baseSurrogate 0 gav0 d2 (leafChain 0 w es sd objId))
      = .ok (.single es) := by
  rcases hrank with rfl | ⟨n, rfl⟩ <;>
    simp [baseSurrogate, leafChain, evStruct, bijForward, chainForward,
      primForward, matchTrailing, resolveOut, shapeSize, hev, gateOf, ok_bind,
      error_bind, Nat.mod_one, Nat.div_one, Nat.one_mul]

/-- With `k > 0` the surrogate of a leaf with event rank at most 1 is a
two-part split: a part of the leaf's flattened event size and an auxiliary
part of size `k`. -/
theorem evStruct_baseSurrogate_pos (k : Nat) (hk : 0 < k) (w : ℚ) (sd : Seed)
    (objId : Nat) (d2 : Dist) (es : Shape)
    (hev : evStruct d2 = .ok (.single es))
    (hrank : es = [] ∨ ∃ n, es = [n]) :
    evStruct (baseSurrogate k (some k) d2 (leafChain k w es sd objId))
      = .ok (.tuple [.single [shapeSize es], .single [k]]) := by
  rcases hrank with rfl | ⟨n, rfl⟩ <;>
    simp [baseSurrogate, hk, leafChain, evStruct, bijForward, chainForward,
      primForward, matchTrailing, resolveOut, shapeSize, hev, ok_bind,
      error_bind, Nat.mod_one, Nat.div_one, Nat.one_mul, Nat.le_add_left,
      Nat.add_sub_cancel]

/-- The auxiliary node's event structure is a single `k`-vector. -/
theorem evStruct_auxEps (k : Nat) (sd : Seed) (objId : Nat) :
    evStruct (auxEps k sd objId) = .ok (.single [k]) := by
  simp [auxEps, auxChain, evStruct, bijForward, chainForward, primForward,
    ok_bind, error_bind]

/-- The loop yields one pair per prior node. -/
theorem harvestPairs_length (k : Nat) (w : ℚ) (kj : Nat) (gav : Option Nat) :
    ∀ (ns : List (Bool × Dist)) (seed : Seed) (ctr : Nat),
      (harvestPairs k w kj gav seed ctr ns).length = ns.length := by
  intro ns
  induction ns with
  | nil => intro seed ctr; rfl
  | cons p rest ih =>
      intro seed ctr
      obtain ⟨wasRoot, d⟩ := p
      simp only [harvestPairs, List.length_cons, ih]

/-- The generator yields one node per prior node, plus the auxiliary node
when `k > 0`. -/
theorem genSpec_length (k : Nat) (w : ℚ) (gav0 : Option Nat)
    (ns : List (Bool × Dist)) (seed : Seed) (ctr : Nat) :
    (genSpec k w gav0 seed ctr ns).length = genSpecCount k ns := by
  by_cases hk : k = 0 <;>
    simp [genSpec, genSpecCount, hk, harvestPairs_length]

/-- Per-node structural summary of a construction-mode loop run: the root tag
is kept exactly when the joint-level auxiliary count is zero, and the event
structure is the original one (`k = 0`) or the two-part split (`k > 0`). -/
theorem harvestPairs_summary (k : Nat) (w : ℚ) (kj : Nat) (gavh : Option Nat)
    (hgavh : 0 < k → gavh = some k) :
    ∀ (ns : List (Bool × Dist)) (seed : Seed) (ctr : Nat),
      (∀ p ∈ ns, isPriorLeaf p.2 = true ∧ (declaredEventShape p.2).length ≤ 1) →
      ((harvestPairs k w kj gavh seed ctr ns).map Prod.fst).map
          (fun p => (p.1, evStruct p.2))
        = ns.map (fun p => (p.1 && decide (kj = 0),
            if k = 0 then Except.ok (.single (declaredEventShape p.2))
            else Except.ok (.tuple
              [.single [shapeSize (declaredEventShape p.2)], .single [k]]))) := by
  intro ns
  induction ns with
  | nil => intro seed ctr hleaf; rfl
  | cons p rest ih =>
      intro seed ctr hleaf
      obtain ⟨wasRoot, d⟩ := p
      have hl := hleaf (wasRoot, d) (List.mem_cons_self _ _)
      have hsub := substNamed_leaf d hl.1
      have hrank : declaredEventShape (defaultSubstNamed d) = [] ∨
          ∃ n, declaredEventShape (defaultSubstNamed d) = [n] := by
        rw [hsub.2.1]
        rcases hde : declaredEventShape d with _ | ⟨n, t⟩
        · exact Or.inl rfl
        · rcases t with _ | ⟨m, t2⟩
          · exact Or.inr ⟨n, rfl⟩
          · rw [hde] at hl; simp at hl
      have hevd2 : evStruct (defaultSubstNamed d)
          = .ok (.single (declaredEventShape (defaultSubstNamed d))) := by
        rw [hsub.2.1]; exact hsub.2.2.1
      have hihr := ih (splitSeed seed).1 (ctr + 1)
        (fun q hq => hleaf q (List.mem_cons_of_mem _ hq))
      by_cases hk : k = 0
      · subst hk
        have hz := evStruct_baseSurrogate_zero gavh w (splitSeed seed).2 ctr
          (defaultSubstNamed d) (declaredEventShape (defaultSubstNamed d))
          hevd2 hrank
        rw [hsub.2.1] at hz
        simp only [harvestPairs, List.map_cons, hihr, hz, hsub.2.1]
        simp
      · have hkpos : 0 < k := Nat.pos_of_ne_zero hk
        have hgv := hgavh hkpos
        subst hgv
        have hp := evStruct_baseSurrogate_pos k hkpos w (splitSeed seed).2 ctr
          (defaultSubstNamed d) (declaredEventShape (defaultSubstNamed d))
          hevd2 hrank
        rw [hsub.2.1] at hp
        simp only [harvestPairs, List.map_cons, hihr, hp, hsub.2.1]
        simp [hk]

/-- Structural summary of the full generator output over a leaf-only prior. -/
theorem genSpec_summary (k : Nat) (w : ℚ) (gav0 : Option Nat)
    (ns : List (Bool × Dist)) (seed : Seed) (ctr : Nat)
    (hleaf : ∀ p ∈ ns, isPriorLeaf p.2 = true ∧ (declaredEventShape p.2).length ≤ 1) :
    ((genSpec k w gav0 seed ctr ns).map Prod.fst).map
        (fun p => (p.1, evStruct p.2))
      = expectedSummary k ns := by
  by_cases hk : k = 0
  · subst hk
    have hh := harvestPairs_summary 0 w 0 gav0 (by omega) ns seed ctr hleaf
    simp only [genSpec, expectedSummary, if_true, hh]
    simp
  · have hkpos : 0 < k := Nat.pos_of_ne_zero hk
    have hh := harvestPairs_summary k w k (some k) (fun _ => rfl) ns seed
      (ctr + 1) hleaf
    simp only [genSpec, expectedSummary, hk, if_false, List.map_cons, hh,
      evStruct_auxEps]
    simp [hk]

/-- Structural summary of the finished surrogate of a leaf-only prior:
independent of the seed, it is `expectedSummary`. -/
theorem build_summary_leafModel (k : Nat) (w : ℚ) (ab : Bool) (nm : String)
    (ns : List (Bool × Dist)) (fuel : Nat) (seed : Seed)
    (hk : 0 < k)
    (hne : ns ≠ [])
    (hleaf : ∀ p ∈ ns, isPriorLeaf p.2 = true ∧ (declaredEventShape p.2).length ≤ 1)
    (hfuel : ns.length + 4 ≤ fuel) :
    (buildCfSurrogatePosterior fuel defaultRegistry k w seed
        (.jointD ab nm ns)).map (fun r => summarize r.1)
      = .ok (some (expectedSummary k ns)) := by
  rw [build_leafModel k w ab nm ns fuel seed hk hne hleaf hfuel]
  simp only [ok_map, summarize, Except.ok.injEq, Option.some.injEq]
  exact genSpec_summary k w none ns seed 0 hleaf

/--
C1 (amended): for every joint prior model given as a nonempty sequence of N
leaf nodes whose (substituted) event shapes have rank at most 1: with
`num_auxiliary_variables = k > 0`, the surrogate produced by
`build_cf_surrogate_posterior` yields exactly N+1 nodes — a leading
root-tagged auxiliary node of event size `k` followed by the N nodes in the
original order, where the i-th such node is NOT shaped like the original but
is a two-part split whose first part has the original node's flattened event
size and whose second part has size `k` — and no node is reordered or
dropped.  With `num_auxiliary_variables = 0` the build does not yield N
shape-matching nodes, or any nodes at all: it raises `UnboundLocalError`,
because the generator-local `global_auxiliary_variables` (assigned only in
the `num_auxiliary_variables > 0` branch, line 368) is read unassigned at
line 384 on the first loop iteration.  (The original claim's shape-matching
for `k > 0` fails — see the counterexample — and a leaf of event rank at
least 2 raises a TypeError at construction, which forces the rank
restriction.)
-/
theorem c1_amended_structure (ab : Bool) (nm : String)
    (ns : List (Bool × Dist)) (k : Nat) (w : ℚ) (seed : Seed) (fuel : Nat)
    (hne : ns ≠ [])
    (hleaf : ∀ p ∈ ns, isPriorLeaf p.2 = true ∧ (declaredEventShape p.2).length ≤ 1)
    (hfuel : ns.length + 4 ≤ fuel)
    (hk : 0 < k) :
    (buildCfSurrogatePosterior fuel defaultRegistry k w seed
        (.jointD ab nm ns)).map (fun r => summarize r.1)
      = .ok (some (expectedSummary k ns))
    ∧ (expectedSummary k ns).length = ns.length + 1
    ∧ buildCfSurrogatePosterior fuel defaultRegistry 0 w seed
        (.jointD ab nm ns)
      = .error
        "UnboundLocalError: local variable global_auxiliary_variables referenced before assignment" := by
  obtain ⟨⟨wr, d0⟩, rest, rfl⟩ : ∃ n0 rest, ns = n0 :: rest := by
    cases ns with
    | nil => exact absurd rfl hne
    | cons a t => exact ⟨a, t, rfl⟩
  have hk0 : ¬ k = 0 := by omega
  refine ⟨build_summary_leafModel k w ab nm _ fuel seed hk hne hleaf hfuel,
    ?_, ?_⟩
  · simp [expectedSummary, hk0]
  · exact build_unbound w ab nm wr d0 rest fuel seed (by simp at hfuel; omega)

/--
C1 (counterexample): with `num_auxiliary_variables = 1` and a single leaf
node of event shape `[2]`, the surrogate's second node has event structure a
two-part tuple `([2], [1])`, which is not the original event shape `[2]`, so
the claim's "N shape-matching nodes" for `k > 0` is false as stated.
-/
theorem c1_counterexample :
    ((buildCfSurrogatePosterior 20 defaultRegistry 1 (1/2) (some 0)
        (.jointD true "p" [(true, .base "x" [2])])).map (fun r => summarize r.1)
      = .ok (some [(true, .ok (.single [1])),
                   (false, .ok (.tuple [.single [2], .single [1]]))]))
    ∧ EvStruct.tuple [.single [2], .single [1]] ≠ EvStruct.single [2]
    ∧ evStruct (.base "x" [2]) = .ok (.single [2]) :=
  ⟨rfl, fun h => EvStruct.noConfusion h, rfl⟩

/-- Witness for the amended C1 at a concrete two-node model with one
auxiliary variable: the build succeeds with the predicted 3-node summary,
and the same model at `num_auxiliary_variables = 0` raises
`UnboundLocalError`. -/
theorem c1_amended_structure_witness :
    ([(true, Dist.base "x" [3]), (false, Dist.halfNormal "h")]
        ≠ ([] : List (Bool × Dist)))
    ∧ (buildCfSurrogatePosterior 10 defaultRegistry 1 (1/2) (some 7)
        (.jointD true "m" [(true, .base "x" [3]), (false, .halfNormal "h")])).map
          (fun r => summarize r.1)
      = .ok (some (expectedSummary 1
          [(true, .base "x" [3]), (false, .halfNormal "h")]))
    ∧ buildCfSurrogatePosterior 10 defaultRegistry 0 (1/2) (some 7)
        (.jointD true "m" [(true, .base "x" [3]), (false, .halfNormal "h")])
      = .error
        "UnboundLocalError: local variable global_auxiliary_variables referenced before assignment" :=
  ⟨by simp,
   (c1_amended_structure true "m"
      [(true, .base "x" [3]), (false, .halfNormal "h")] 1 (1/2) (some 7) 10
      (by simp) (by decide) (by decide) (by decide)).1,
   (c1_amended_structure true "m"
      [(true, .base "x" [3]), (false, .halfNormal "h")] 1 (1/2) (some 7) 10
      (by simp) (by decide) (by decide) (by decide)).2.2⟩

/--
C9: structural determinism.  Two calls to `build_cf_surrogate_posterior`
with the same prior produce structurally identical outcomes — even when the
two calls use different seeds (and different fuel bounds), since seeds only
enter the trainable layers' initialisation; with the same seed the full
results coincide because construction is deterministic.  With
`num_auxiliary_variables = k > 0` both builds succeed with identical node
count, node ordering, root tags and per-node event structures; with `k = 0`
both builds deterministically raise the same `UnboundLocalError`, so the
structural outcomes are again identical.
-/
theorem c9_structural_determinism (ab : Bool) (nm : String)
    (ns : List (Bool × Dist)) (k : Nat) (w : ℚ)
    (seed1 seed2 : Seed) (fuel1 fuel2 : Nat)
    (hne : ns ≠ [])
    (hleaf : ∀ p ∈ ns, isPriorLeaf p.2 = true ∧ (declaredEventShape p.2).length ≤ 1)
    (hfuel1 : ns.length + 4 ≤ fuel1) (hfuel2 : ns.length + 4 ≤ fuel2) :
    (buildCfSurrogatePosterior fuel1 defaultRegistry k w seed1
        (.jointD ab nm ns)).map (fun r => summarize r.1)
      = (buildCfSurrogatePosterior fuel2 defaultRegistry k w seed2
          (.jointD ab nm ns)).map (fun r => summarize r.1) := by
  by_cases hk : k = 0
  · subst hk
    obtain ⟨⟨wr, d0⟩, rest, rfl⟩ : ∃ n0 rest, ns = n0 :: rest := by
      cases ns with
      | nil => exact absurd rfl hne
      | cons a t => exact ⟨a, t, rfl⟩
    rw [build_unbound w ab nm wr d0 rest fuel1 seed1
        (by simp at hfuel1; omega),
      build_unbound w ab nm wr d0 rest fuel2 seed2
        (by simp at hfuel2; omega)]
  · have hk2 : 0 < k := Nat.pos_of_ne_zero hk
    rw [build_summary_leafModel k w ab nm ns fuel1 seed1 hk2 hne hleaf hfuel1,
      build_summary_leafModel k w ab nm ns fuel2 seed2 hk2 hne hleaf hfuel2]

/-- Witness for C9 at a concrete model and two different seeds. -/
theorem c9_structural_determinism_witness :
    ([(true, Dist.exponential "e")] ≠ ([] : List (Bool × Dist)))
    ∧ (buildCfSurrogatePosterior 10 defaultRegistry 2 (1/2) (some 3)
        (.jointD true "m" [(true, .exponential "e")])).map (fun r => summarize r.1)
      = (buildCfSurrogatePosterior 12 defaultRegistry 2 (1/2) (some 99)
          (.jointD true "m" [(true, .exponential "e")])).map (fun r => summarize r.1) :=
  ⟨by simp,
   c9_structural_determinism true "m" [(true, .exponential "e")] 2 (1/2)
     (some 3) (some 99) 10 12 (by simp) (by decide) (by decide) (by decide)⟩

/--
C3 (counterexample): with `num_auxiliary_variables = 1` and a one-node
prior, the assembled surrogate declares 2 nodes while the prior declares 1 —
a structural mismatch — yet assembly returns successfully and raises no
error: the structure check of lines 431-446 is commented out.
-/
theorem c3_counterexample :
    isOkE (buildCfSurrogatePosterior 20 defaultRegistry 1 (1/2) (some 0)
      (.jointD true "q" [(true, .base "y" [2])])) = true
    ∧ (buildCfSurrogatePosterior 20 defaultRegistry 1 (1/2) (some 0)
        (.jointD true "q" [(true, .base "y" [2])])).map (fun r => nodeCount r.1)
      = .ok (some 2)
    ∧ nodeCount (.jointD true "q" [(true, .base "y" [2])]) = some 1
    ∧ (2 : Nat) ≠ 1 :=
  ⟨rfl, rfl, rfl, by decide⟩

/--
C3 (amended): assembly performs NO structural check — the
`assert_same_structure` block is commented out in the source — so whenever
`num_auxiliary_variables > 0` the assembled surrogate's node structure
differs from the prior's (N+1 nodes versus N) and assembly nevertheless
succeeds silently instead of raising a fatal error.
-/
theorem c3_amended_no_structure_check (ab : Bool) (nm : String)
    (ns : List (Bool × Dist)) (k : Nat) (w : ℚ) (seed : Seed) (fuel : Nat)
    (hne : ns ≠ [])
    (hleaf : ∀ p ∈ ns, isPriorLeaf p.2 = true ∧ (declaredEventShape p.2).length ≤ 1)
    (hfuel : ns.length + 4 ≤ fuel)
    (hk : 0 < k) :
    ∃ s v, buildCfSurrogatePosterior fuel defaultRegistry k w seed
        (.jointD ab nm ns) = .ok (s, v)
      ∧ nodeCount s = some (ns.length + 1)
      ∧ nodeCount (.jointD ab nm ns) = some ns.length
      ∧ ns.length + 1 ≠ ns.length := by
  have hk0 : ¬ k = 0 := by omega
  refine ⟨_, _, build_leafModel k w ab nm ns fuel seed hk hne hleaf hfuel,
    ?_, rfl, by omega⟩
  simp [nodeCount, genSpec_length, genSpecCount, hk0]

/-- Witness for the amended C3 at a concrete one-node model. -/
theorem c3_amended_no_structure_check_witness :
    ([(true, Dist.gamma "g")] ≠ ([] : List (Bool × Dist)))
    ∧ ∃ s v, buildCfSurrogatePosterior 10 defaultRegistry 3 (1/2) (some 1)
          (.jointD false "q2" [(true, .gamma "g")]) = .ok (s, v)
        ∧ nodeCount s = some 2
        ∧ nodeCount (.jointD false "q2" [(true, .gamma "g")]) = some 1 := by
  refine ⟨by simp, ?_⟩
  obtain ⟨s, v, h1, h2, h3, _⟩ := c3_amended_no_structure_check false "q2"
    [(true, .gamma "g")] 3 (1/2) (some 1) 10 (by simp) (by decide) (by decide)
    (by decide)
  exact ⟨s, v, h1, h2, h3⟩

/--
C4: `build_cf_surrogate_posterior` documents (docstring lines 200-201) that
a nested `JointDistribution` prior raises a TypeError at the top level, but
the function body performs no type check at all: on a prior whose node is
itself a joint model the call is not rejected with a TypeError — instead,
with the default `num_auxiliary_variables = 0` the generator raises
`UnboundLocalError` from the unassigned local at line 384, and even with
`num_auxiliary_variables > 0` the nested node is dispatched recursively
without `num_auxiliary_variables` (line 380), so the inner generator runs
with 0 and raises the same `UnboundLocalError`.  The documented TypeError is
never raised.
-/
theorem c4_nested_prior_unbound_local :
    buildCfSurrogatePosterior 20 defaultRegistry 0 (1/2) (some 0)
        (.jointD true "outer"
          [(true, .jointD true "inner" [(true, .base "x" [1])])])
      = .error
        "UnboundLocalError: local variable global_auxiliary_variables referenced before assignment"
    ∧ buildCfSurrogatePosterior 20 defaultRegistry 2 (1/2) (some 0)
        (.jointD true "outer"
          [(true, .jointD true "inner" [(true, .base "x" [1])])])
      = .error
        "UnboundLocalError: local variable global_auxiliary_variables referenced before assignment" :=
  ⟨rfl, rfl⟩

/--
C6 (counterexample): on a leaf with event shape `[2, 2]` (rank 2), the
construction-mode base builder does not create any chain: the conversion
`int(actual_event_shape)` raises a TypeError, so the claim's universal
"for every leaf node ... creates a composed bijector chain" is false.
-/
theorem c6_counterexample :
    cfConvexUpdateForBaseDistribution (cfgD 0 (1/2)) (.base "x" [2, 2]) none
        none (some 0) 0
      = .error "TypeError: only size-1 arrays can be converted to Python scalars" :=
  rfl

/--
C6 (amended): for every leaf whose event shape has rank at most 1 (rank 2
or more raises a TypeError), construction mode creates exactly one chain:
`Chain(reversed([Reshape([-1], es + k), gated layer (activation), gated
layer (activation), gated layer (no activation), Reshape(es + k)]))`, all
gated layers with initial residual fraction `initial_prior_weight`, width
`prod(es + k)` and `gate_first_n` equal to the event size — which is 1 when
the event shape has zero rank.
-/
theorem c6_amended_construction (cfg : Config) (d : Dist) (gav : Option Nat)
    (seed : Seed) (ctr : Nat) (es : Shape)
    (hes : eventShapeTensor d = .ok es)
    (hrank : es = [] ∨ ∃ n, es = [n])
    (hgav : 0 < cfg.numAuxiliaryVariables → gav.isSome = true) :
    (cfConvexUpdateForBaseDistribution cfg d gav none seed ctr
      = .ok (baseSurrogate cfg.numAuxiliaryVariables gav d
          (Bij.chainOf ctr
            ([PrimBij.reshapeFlat (es.map (· + cfg.numAuxiliaryVariables)),
              PrimBij.highwayFlowLayer
                (shapeSize (es.map (· + cfg.numAuxiliaryVariables)))
                cfg.initialPriorWeight true (gateOf es) seed,
              PrimBij.highwayFlowLayer
                (shapeSize (es.map (· + cfg.numAuxiliaryVariables)))
                cfg.initialPriorWeight true (gateOf es) seed,
              PrimBij.highwayFlowLayer
                (shapeSize (es.map (· + cfg.numAuxiliaryVariables)))
                cfg.initialPriorWeight false (gateOf es) seed,
              PrimBij.reshapeTo (es.map (· + cfg.numAuxiliaryVariables))].reverse)),
          Bij.chainOf ctr
            ([PrimBij.reshapeFlat (es.map (· + cfg.numAuxiliaryVariables)),
              PrimBij.highwayFlowLayer
                (shapeSize (es.map (· + cfg.numAuxiliaryVariables)))
                cfg.initialPriorWeight true (gateOf es) seed,
              PrimBij.highwayFlowLayer
                (shapeSize (es.map (· + cfg.numAuxiliaryVariables)))
                cfg.initialPriorWeight true (gateOf es) seed,
              PrimBij.highwayFlowLayer
                (shapeSize (es.map (· + cfg.numAuxiliaryVariables)))
                cfg.initialPriorWeight false (gateOf es) seed,
              PrimBij.reshapeTo (es.map (· + cfg.numAuxiliaryVariables))].reverse),
          ctr + 1))
    ∧ gateOf ([] : Shape) = 1 := by
  refine ⟨?_, rfl⟩
  have h := convexUpdate_construction cfg d gav seed ctr es hes hrank hgav
  rw [h]
  rfl

/-- Witness for the amended C6 at a concrete scalar leaf (rank 0, so
`gate_first_n` is 1). -/
theorem c6_amended_construction_witness :
    eventShapeTensor (Dist.halfNormal "hw") = .ok ([] : Shape)
    ∧ cfConvexUpdateForBaseDistribution (cfgD 0 (3/4)) (.halfNormal "hw") none
        none (some 5) 7
      = .ok (.transformed (.halfNormal "hw")
          (Bij.chainOf 7
            [PrimBij.reshapeTo [],
             PrimBij.highwayFlowLayer 1 (3/4) false 1 (some 5),
             PrimBij.highwayFlowLayer 1 (3/4) true 1 (some 5),
             PrimBij.highwayFlowLayer 1 (3/4) true 1 (some 5),
             PrimBij.reshapeFlat []]),
          Bij.chainOf 7
            [PrimBij.reshapeTo [],
             PrimBij.highwayFlowLayer 1 (3/4) false 1 (some 5),
             PrimBij.highwayFlowLayer 1 (3/4) true 1 (some 5),
             PrimBij.highwayFlowLayer 1 (3/4) true 1 (some 5),
             PrimBij.reshapeFlat []],
          8) := by
  refine ⟨rfl, ?_⟩
  have h := (c6_amended_construction (cfgD 0 (3/4)) (.halfNormal "hw") none
    (some 5) 7 [] rfl (Or.inl rfl) (fun hx => absurd hx (by decide))).1
  rw [h]
  rfl

/--
C7: with `num_auxiliary_variables = k > 0` and no supplied variables, any
successful generator run emits as its leading node a root-tagged pushforward
of `Sample(Normal(0., 0.1), k)` through a freshly allocated
`Chain(reversed([layer(act), layer(act), layer(no act)]))` of highway-flow
layers of width `k`, residual fraction 0.5, `gate_first_n = 0`, and that
chain is the step's trainable parameter set.
-/
theorem c7_auxiliary_generator (fuel : Nat) (cfg : Config) (k : Nat)
    (gav0 : Option Nat) (seed : Seed) (ctr : Nat) (ns : List (Bool × Dist))
    (pairs : List ((Bool × Dist) × VarTree)) (ctr2 : Nat)
    (hk : 0 < k)
    (h : posteriorGenerator (fuel+1) cfg k none gav0 seed ctr ns
      = .ok (pairs, ctr2)) :
    pairs.head? = some
      ((true, Dist.transformed (.sampleD (.normalD 0 (1/10)) k)
          (Bij.chainOf ctr
            ([PrimBij.highwayFlowLayer k (1/2) true 0 seed,
              PrimBij.highwayFlowLayer k (1/2) true 0 seed,
              PrimBij.highwayFlowLayer k (1/2) false 0 seed].reverse))),
       VarTree.leafV (Bij.chainOf ctr
         ([PrimBij.highwayFlowLayer k (1/2) true 0 seed,
           PrimBij.highwayFlowLayer k (1/2) true 0 seed,
           PrimBij.highwayFlowLayer k (1/2) false 0 seed].reverse))) := by
  cases ns with
  | nil =>
      simp only [posteriorGenerator] at h
      exact Except.noConfusion h
  | cons n0 rest =>
      simp only [posteriorGenerator, gt_iff_lt, hk, if_true, ok_bind] at h
      cases hloop : posteriorGeneratorLoop fuel cfg k none (some k) seed
          (ctr + 1) 1 (n0 :: rest) with
      | error e => rw [hloop] at h; simp [error_bind] at h
      | ok r =>
          rw [hloop] at h
          simp only [ok_bind, Except.ok.injEq, Prod.mk.injEq] at h
          rw [← h.1]
          rfl

/-- Witness for C7 at a concrete generator run. -/
theorem c7_auxiliary_generator_witness :
    (0 : Nat) < 2
    ∧ ∃ r : GenResult, posteriorGenerator (9+1) (cfgD 2 (1/2)) 2 none none
        (some 4) 5 [(true, Dist.normalD 0 1)] = .ok r
      ∧ r.1.head? = some
        ((true, Dist.transformed (.sampleD (.normalD 0 (1/10)) 2)
            (Bij.chainOf 5
              ([PrimBij.highwayFlowLayer 2 (1/2) true 0 (some 4),
                PrimBij.highwayFlowLayer 2 (1/2) true 0 (some 4),
                PrimBij.highwayFlowLayer 2 (1/2) false 0 (some 4)].reverse))),
         VarTree.leafV (Bij.chainOf 5
           ([PrimBij.highwayFlowLayer 2 (1/2) true 0 (some 4),
             PrimBij.highwayFlowLayer 2 (1/2) true 0 (some 4),
             PrimBij.highwayFlowLayer 2 (1/2) false 0 (some 4)].reverse))) := by
  refine ⟨by decide, ?_⟩
  have hgen : ∃ r : GenResult, posteriorGenerator (9+1) (cfgD 2 (1/2)) 2 none
      none (some 4) 5 [(true, Dist.normalD 0 1)] = .ok r := ⟨_, rfl⟩
  obtain ⟨r, hr⟩ := hgen
  exact ⟨r, hr, c7_auxiliary_generator 9 (cfgD 2 (1/2)) 2 none (some 4) 5
    [(true, Dist.normalD 0 1)] r.1 r.2 (by decide) (hr.trans rfl)⟩

/--
C8 (counterexample): the claim's re-tag "if and only if
`num_auxiliary_variables = 0`" never occurs in the program: a
`num_auxiliary_variables = 0` iteration of the generator's main loop raises
`UnboundLocalError` reading the unassigned generator-local
`global_auxiliary_variables` (line 384) before it can reach the re-tag at
lines 387-388, and the whole build of a one-root-node prior at
`num_auxiliary_variables = 0` fails the same way, yielding no (re-tagged or
other) node at all.
-/
theorem c8_counterexample :
    posteriorGeneratorLoop 10 (cfgD 0 (1/2)) 0 none none (some 0) 0 0
        [(true, Dist.gamma "g")]
      = .error
        "UnboundLocalError: local variable global_auxiliary_variables referenced before assignment"
    ∧ buildCfSurrogatePosterior 20 defaultRegistry 0 (1/2) (some 0)
        (.jointD true "mroot" [(true, .gamma "g")])
      = .error
        "UnboundLocalError: local variable global_auxiliary_variables referenced before assignment" :=
  ⟨rfl, rfl⟩

/--
C8 (amended): for every node the inner prior program yields, the walker
strips the `Root` tag before dispatching (the dispatched distribution is the
untagged `d`).  A successful iteration requires the generator-local
`global_auxiliary_variables` to be assigned (which the program does only in
the `num_auxiliary_variables > 0` branch, line 368): an unassigned local
makes the iteration raise `UnboundLocalError` instead.  The yielded
surrogate carries the root tag `wasRoot && (numAux == 0)`, which is never
`true` for an untagged node and never `true` in a `numAux > 0` run — so the
re-tag branch of lines 387-388 is dead code and no surrogate is ever
re-tagged as root in a reachable run.
-/
theorem c8_root_tag_handling (fuel : Nat) (cfg : Config) (numAux : Nat)
    (flatVars : Option (List VarTree)) (gav : Option Nat) (seed : Seed)
    (ctr i : Nat) (wasRoot : Bool) (d : Dist) (rest : List (Bool × Dist))
    (pairs : List ((Bool × Dist) × VarTree)) (ctr2 : Nat)
    (h : posteriorGeneratorLoop (fuel+1) cfg numAux flatVars gav seed ctr i
        ((wasRoot, d) :: rest) = .ok (pairs, ctr2)) :
    (∃ g, gav = some g)
    ∧ ∃ cv surr vt c2 rest2,
      cfSurrogateForDistribution fuel cfg 0 cv gav (splitSeed seed).2 ctr d
        = .ok (surr, vt, c2)
      ∧ pairs = ((wasRoot && decide (numAux = 0), surr), vt) :: rest2
      ∧ (wasRoot = false → (wasRoot && decide (numAux = 0)) = false)
      ∧ (0 < numAux → (wasRoot && decide (numAux = 0)) = false) := by
  cases gav with
  | none =>
      exfalso
      simp only [posteriorGeneratorLoop] at h
      split at h
      · split at h <;> exact Except.noConfusion h
      · simp [ok_bind, error_bind] at h
  | some g =>
      simp only [posteriorGeneratorLoop] at h
      refine ⟨⟨g, rfl⟩, ?_⟩
      have hmain : ∀ (cv : Option VarTree),
          ((do
            let r ← cfSurrogateForDistribution fuel cfg 0 cv (some g)
              (splitSeed seed).2 ctr d
            let r2 ← posteriorGeneratorLoop fuel cfg numAux flatVars (some g)
              (splitSeed seed).1 r.2.2 (i + 1) rest
            Except.ok (((wasRoot && decide (numAux = 0), r.1), r.2.1) :: r2.1,
              r2.2))
              : Except String GenResult) = .ok (pairs, ctr2) →
          ∃ cv2 surr vt c2 rest2,
            cfSurrogateForDistribution fuel cfg 0 cv2 (some g)
                (splitSeed seed).2 ctr d
              = .ok (surr, vt, c2)
            ∧ pairs = ((wasRoot && decide (numAux = 0), surr), vt) :: rest2
            ∧ (wasRoot = false → (wasRoot && decide (numAux = 0)) = false)
            ∧ (0 < numAux → (wasRoot && decide (numAux = 0)) = false) := by
        intro cv hdo
        cases hchild : cfSurrogateForDistribution fuel cfg 0 cv (some g)
            (splitSeed seed).2 ctr d with
        | error e => rw [hchild] at hdo; simp [error_bind] at hdo
        | ok r =>
            rw [hchild] at hdo
            simp only [ok_bind] at hdo
            cases hloop : posteriorGeneratorLoop fuel cfg numAux flatVars
                (some g) (splitSeed seed).1 r.2.2 (i + 1) rest with
            | error e => rw [hloop] at hdo; simp [error_bind] at hdo
            | ok r2 =>
                rw [hloop] at hdo
                simp only [ok_bind, Except.ok.injEq, Prod.mk.injEq] at hdo
                exact ⟨cv, r.1, r.2.1, r.2.2, r2.1, hchild, hdo.1.symm,
                  fun hr => by simp [hr],
                  fun hn => by simp [Nat.pos_iff_ne_zero.mp hn]⟩
      split at h
      · split at h
        · exact hmain _ h
        · simp [error_bind] at h
      · simp only [ok_bind] at h
        exact hmain none h

/-- Witness for the amended C8 at a concrete loop run with a root-tagged
node and `num_auxiliary_variables > 0` (the local is assigned and the
surrogate loses the tag). -/
theorem c8_root_tag_handling_witness :
    ∃ r : GenResult,
      posteriorGeneratorLoop (9+1) (cfgD 1 (1/2)) 1 none (some 1) (some 0) 0 1
        [(true, Dist.gamma "gw")] = .ok r
      ∧ (∃ g, (some 1 : Option Nat) = some g)
      ∧ ∃ cv surr vt c2 rest2,
        cfSurrogateForDistribution 9 (cfgD 1 (1/2)) 0 cv (some 1)
            (splitSeed (some 0)).2 0 (.gamma "gw") = .ok (surr, vt, c2)
        ∧ r.1 = ((true && decide ((1:Nat) = 0), surr), vt) :: rest2 := by
  have hgen : ∃ r : GenResult, posteriorGeneratorLoop (9+1) (cfgD 1 (1/2)) 1
      none (some 1) (some 0) 0 1 [(true, Dist.gamma "gw")] = .ok r := ⟨_, rfl⟩
  obtain ⟨r, hr⟩ := hgen
  obtain ⟨hg, cv, surr, vt, c2, rest2, h1, h2, _, _⟩ :=
    c8_root_tag_handling 9 (cfgD 1 (1/2)) 1 none (some 1) (some 0) 0 1 true
      (.gamma "gw") [] r.1 r.2 (hr.trans rfl)
  exact ⟨r, hr, hg, cv, surr, vt, c2, rest2, h1, h2⟩

/-- Construction mode of the base builder, when it succeeds, allocates
exactly one chain, carrying the current counter as its identity. -/
theorem convexUpdate_none_alloc (cfg : Config) (d : Dist) (gav : Option Nat)
    (seed : Seed) (ctr : Nat) (s : Dist) (vo : Bij) (c2 : Nat)
    (h : cfConvexUpdateForBaseDistribution cfg d gav none seed ctr
      = .ok (s, vo, c2)) :
    c2 = ctr + 1 ∧ ∃ bs, vo = .chainOf ctr bs := by
  unfold cfConvexUpdateForBaseDistribution at h
  cases hes : eventShapeTensor d with
  | error e => rw [hes] at h; simp [error_bind] at h
  | ok es =>
      rw [hes] at h
      simp only [ok_bind] at h
      cases hint : intEventShape es with
      | error e => rw [hint] at h; simp [error_bind] at h
      | ok g =>
          rw [hint] at h
          simp only [ok_bind] at h
          by_cases hk : cfg.numAuxiliaryVariables > 0
          · simp only [hk, if_true] at h
            cases gav with
            | none => simp [error_bind] at h
            | some kg =>
                simp only [ok_bind, Except.ok.injEq, Prod.mk.injEq] at h
                exact ⟨h.2.2.symm, ⟨_, h.2.1.symm⟩⟩
          · simp only [hk, if_false] at h
            simp only [ok_bind, Except.ok.injEq, Prod.mk.injEq] at h
            exact ⟨h.2.2.symm, ⟨_, h.2.1.symm⟩⟩

/-- The base branch of the dispatcher in reuse mode returns the supplied
chain and leaves the counter untouched. -/
theorem baseBranch_noalloc (cfg : Config) (d2 : Dist) (b : Bij)
    (gav : Option Nat) (seed : Seed) (ctr : Nat) (s : Dist) (vo : VarTree)
    (c2 : Nat)
    (h : (do
        let r ← cfConvexUpdateForBaseDistribution cfg d2 gav (some b) seed ctr
        Except.ok (r.1, VarTree.leafV r.2.1, r.2.2)) = Except.ok (s, vo, c2)) :
    vo = VarTree.leafV b ∧ c2 = ctr := by
  cases hcu : cfConvexUpdateForBaseDistribution cfg d2 gav (some b) seed ctr with
  | error e => rw [hcu] at h; simp [error_bind] at h
  | ok r =>
      rw [hcu] at h
      simp only [ok_bind, Except.ok.injEq, Prod.mk.injEq] at h
      obtain ⟨hv, hc⟩ := convexUpdate_supplied_noalloc _ _ _ _ _ _ _ _ _ hcu
      refine ⟨h.2.1.symm.trans (by rw [hv]), h.2.2.symm.trans hc⟩

/-- The base branch of the dispatcher in construction mode allocates exactly
the chain carrying the current counter. -/
theorem baseBranch_alloc (cfg : Config) (d2 : Dist)
    (gav : Option Nat) (seed : Seed) (ctr : Nat) (s : Dist) (vo : VarTree)
    (c2 : Nat)
    (h : (do
        let r ← cfConvexUpdateForBaseDistribution cfg d2 gav none seed ctr
        Except.ok (r.1, VarTree.leafV r.2.1, r.2.2)) = Except.ok (s, vo, c2)) :
    ctr ≤ c2 ∧ chainIds vo = List.range' ctr (c2 - ctr) := by
  cases hcu : cfConvexUpdateForBaseDistribution cfg d2 gav none seed ctr with
  | error e => rw [hcu] at h; simp [error_bind] at h
  | ok r =>
      rw [hcu] at h
      simp only [ok_bind, Except.ok.injEq, Prod.mk.injEq] at h
      obtain ⟨hc, bs, hb⟩ := convexUpdate_none_alloc _ _ _ _ _ _ _ _ hcu
      have hc2 : c2 = ctr + 1 := by rw [← h.2.2, hc]
      subst hc2
      refine ⟨by omega, ?_⟩
      rw [← h.2.1, hb]
      simp [chainIds, List.range']

/-- Allocation behaviour of the whole walker, by induction on fuel: with
variables supplied, every function returns them verbatim (where applicable)
and never advances the allocation counter — re-sampling a finished surrogate
creates no parameter objects; with no variables supplied, the identifiers of
the chains in the returned variable structure are exactly the consecutive
range of counters consumed, so the created parameter objects are pairwise
distinct and number exactly the construction sites visited. -/
theorem walker_allocation : ∀ fuel : Nat,
    (∀ (cfg : Config) (numAux : Nat) (v : VarTree) (gav : Option Nat)
      (seed : Seed) (ctr : Nat) (d : Dist) (s : Dist) (vo : VarTree) (c2 : Nat),
      cfSurrogateForDistribution fuel cfg numAux (some v) gav seed ctr d
        = .ok (s, vo, c2) → vo = v ∧ c2 = ctr)
    ∧ (∀ (cfg : Config) (numAux : Nat) (v : VarTree) (gav : Option Nat)
      (seed : Seed) (ctr : Nat) (ab : Bool) (nm : String)
      (ns : List (Bool × Dist)) (s : Dist) (vo : VarTree) (c2 : Nat),
      cfSurrogateForJointDistribution fuel cfg numAux (some v) gav seed ctr
        ab nm ns = .ok (s, vo, c2) → vo = v ∧ c2 = ctr)
    ∧ (∀ (cfg : Config) (numAux : Nat) (l : List VarTree) (gav : Option Nat)
      (seed : Seed) (ctr : Nat) (ns : List (Bool × Dist))
      (pairs : List ((Bool × Dist) × VarTree)) (c2 : Nat),
      posteriorGenerator fuel cfg numAux (some l) gav seed ctr ns
        = .ok (pairs, c2) → c2 = ctr)
    ∧ (∀ (cfg : Config) (numAux : Nat) (l : List VarTree) (gav : Option Nat)
      (seed : Seed) (ctr i : Nat) (ns : List (Bool × Dist))
      (pairs : List ((Bool × Dist) × VarTree)) (c2 : Nat),
      posteriorGeneratorLoop fuel cfg numAux (some l) gav seed ctr i ns
        = .ok (pairs, c2) → c2 = ctr)
    ∧ (∀ (cfg : Config) (numAux : Nat) (gav : Option Nat) (seed : Seed)
      (ctr : Nat) (d : Dist) (s : Dist) (vo : VarTree) (c2 : Nat),
      cfSurrogateForDistribution fuel cfg numAux none gav seed ctr d
        = .ok (s, vo, c2) →
        ctr ≤ c2 ∧ chainIds vo = List.range' ctr (c2 - ctr))
    ∧ (∀ (cfg : Config) (numAux : Nat) (gav : Option Nat) (seed : Seed)
      (ctr : Nat) (ab : Bool) (nm : String) (ns : List (Bool × Dist))
      (s : Dist) (vo : VarTree) (c2 : Nat),
      cfSurrogateForJointDistribution fuel cfg numAux none gav seed ctr ab nm ns
        = .ok (s, vo, c2) →
        ctr ≤ c2 ∧ chainIds vo = List.range' ctr (c2 - ctr))
    ∧ (∀ (cfg : Config) (numAux : Nat) (gav : Option Nat) (seed : Seed)
      (ctr : Nat) (ns : List (Bool × Dist))
      (pairs : List ((Bool × Dist) × VarTree)) (c2 : Nat),
      posteriorGenerator fuel cfg numAux none gav seed ctr ns
        = .ok (pairs, c2) →
        ctr ≤ c2 ∧ chainIdsList (pairs.map Prod.snd) = List.range' ctr (c2 - ctr))
    ∧ (∀ (cfg : Config) (numAux : Nat) (gav : Option Nat) (seed : Seed)
      (ctr i : Nat) (ns : List (Bool × Dist))
      (pairs : List ((Bool × Dist) × VarTree)) (c2 : Nat),
      posteriorGeneratorLoop fuel cfg numAux none gav seed ctr i ns
        = .ok (pairs, c2) →
        ctr ≤ c2 ∧ chainIdsList (pairs.map Prod.snd) = List.range' ctr (c2 - ctr)) := by
  intro fuel
  induction fuel with
  | zero =>
      refine ⟨?_, ?_, ?_, ?_, ?_, ?_, ?_, ?_⟩ <;>
        · intros
          rename_i h
          exact Except.noConfusion h
  | succ fuel ih =>
      obtain ⟨ihA1, ihA2, ihA3, ihA4, ihB1, ihB2, ihB3, ihB4⟩ := ih
      refine ⟨?_, ?_, ?_, ?_, ?_, ?_, ?_, ?_⟩
      -- A1: dispatcher, variables supplied
      · intro cfg numAux v gav seed ctr d s vo c2 h
        simp only [cfSurrogateForDistribution] at h
        split at h
        · exact ihA2 _ _ _ _ _ _ _ _ _ _ _ _ h
        · split at h
          · rename_i heq
            exact Option.noConfusion heq
          · rename_i b heq
            simp only [ok_bind] at h
            obtain ⟨hv, hc⟩ := baseBranch_noalloc _ _ _ _ _ _ _ _ _ h
            injection heq with heq2
            exact ⟨hv.trans heq2.symm, hc⟩
          · simp [error_bind] at h
      -- A2: joint builder, variables supplied
      · intro cfg numAux v gav seed ctr ab nm ns s vo c2 h
        simp only [cfSurrogateForJointDistribution] at h
        split at h
        · rename_i heq
          exact Option.noConfusion heq
        · rename_i vs heq
          injection heq with heq2
          cases hpg : posteriorGenerator fuel cfg numAux (some vs) gav seed ctr
              ns with
          | error e => rw [hpg] at h; simp [error_bind] at h
          | ok r =>
              obtain ⟨p2, cc⟩ := r
              rw [hpg] at h
              simp only [ok_bind, Except.ok.injEq, Prod.mk.injEq] at h
              have hc := ihA3 _ _ _ _ _ _ _ _ _ hpg
              exact ⟨h.2.1.symm.trans heq2.symm, h.2.2.symm.trans hc⟩
        · exact Except.noConfusion h
      -- A3: generator, variables supplied
      · intro cfg numAux l gav seed ctr ns pairs c2 h
        cases ns with
        | nil =>
            simp only [posteriorGenerator] at h
            exact Except.noConfusion h
        | cons n0 rest =>
            simp only [posteriorGenerator] at h
            split at h
            · split at h
              · rename_i b heq
                simp only [ok_bind] at h
                cases hlp : posteriorGeneratorLoop fuel cfg numAux (some l)
                    (some numAux) seed ctr 1 (n0 :: rest) with
                | error e => rw [hlp] at h; simp [error_bind] at h
                | ok r =>
                    obtain ⟨p2, cc⟩ := r
                    rw [hlp] at h
                    simp only [ok_bind, Except.ok.injEq, Prod.mk.injEq] at h
                    exact h.2.symm.trans (ihA4 _ _ _ _ _ _ _ _ _ _ hlp)
              · simp [error_bind] at h
              · simp [error_bind] at h
            · cases hlp : posteriorGeneratorLoop fuel cfg numAux (some l) none
                  seed ctr 0 (n0 :: rest) with
              | error e => rw [hlp] at h; simp [error_bind] at h
              | ok r =>
                  obtain ⟨p2, cc⟩ := r
                  rw [hlp] at h
                  simp only [ok_bind, Except.ok.injEq, Prod.mk.injEq] at h
                  exact h.2.symm.trans (ihA4 _ _ _ _ _ _ _ _ _ _ hlp)
      -- A4: loop, variables supplied
      · intro cfg numAux l gav seed ctr i ns pairs c2 h
        cases ns with
        | nil =>
            simp only [posteriorGeneratorLoop, Except.ok.injEq, Prod.mk.injEq]
              at h
            exact h.2.symm
        | cons p rest =>
            obtain ⟨wasRoot, d⟩ := p
            cases gav with
            | none =>
                simp only [posteriorGeneratorLoop] at h
                split at h
                · simp [ok_bind, error_bind] at h
                · simp [error_bind] at h
            | some g =>
                simp only [posteriorGeneratorLoop] at h
                split at h
                · rename_i v heq
                  simp only [ok_bind] at h
                  cases hc : cfSurrogateForDistribution fuel cfg 0 (some v)
                      (some g) (splitSeed seed).2 ctr d with
                  | error e => rw [hc] at h; simp [error_bind] at h
                  | ok r =>
                      obtain ⟨s1, v1, c1⟩ := r
                      rw [hc] at h
                      simp only [ok_bind] at h
                      cases hlp : posteriorGeneratorLoop fuel cfg numAux
                          (some l) (some g) (splitSeed seed).1 c1 (i + 1)
                          rest with
                      | error e => rw [hlp] at h; simp [error_bind] at h
                      | ok r2 =>
                          obtain ⟨p2, cc⟩ := r2
                          rw [hlp] at h
                          simp only [ok_bind, Except.ok.injEq, Prod.mk.injEq]
                            at h
                          have hc1 := (ihA1 _ _ _ _ _ _ _ _ _ _ hc).2
                          have hc2 := ihA4 _ _ _ _ _ _ _ _ _ _ hlp
                          obtain ⟨hp, hcc⟩ := h
                          omega
                · simp [error_bind] at h
      -- B1: dispatcher, construction mode
      · intro cfg numAux gav seed ctr d s vo c2 h
        simp only [cfSurrogateForDistribution] at h
        split at h
        · exact ihB2 _ _ _ _ _ _ _ _ _ _ _ h
        · simp only [ok_bind] at h
          exact baseBranch_alloc _ _ _ _ _ _ _ _ h
      -- B2: joint builder, construction mode
      · intro cfg numAux gav seed ctr ab nm ns s vo c2 h
        simp only [cfSurrogateForJointDistribution] at h
        cases hpg : posteriorGenerator fuel cfg numAux none gav seed ctr ns with
        | error e => rw [hpg] at h; simp [error_bind] at h
        | ok r =>
            obtain ⟨p1, c1⟩ := r
            rw [hpg] at h
            simp only [ok_bind] at h
            cases hpg2 : posteriorGenerator fuel cfg numAux
                (some (List.map (fun p => p.2) p1)) gav none c1 ns with
            | error e => rw [hpg2] at h; simp [error_bind] at h
            | ok r2 =>
                obtain ⟨p2, cc2⟩ := r2
                rw [hpg2] at h
                simp only [ok_bind, Except.ok.injEq, Prod.mk.injEq] at h
                obtain ⟨hs, hv, hcc⟩ := h
                obtain ⟨hle, hids⟩ := ihB3 _ _ _ _ _ _ _ _ hpg
                have hc2 := ihA3 _ _ _ _ _ _ _ _ _ hpg2
                have hceq : c2 = c1 := by omega
                subst hceq
                refine ⟨hle, ?_⟩
                rw [← hv]
                simp only [chainIds]
                exact hids
      -- B3: generator, construction mode
      · intro cfg numAux gav seed ctr ns pairs c2 h
        cases ns with
        | nil =>
            simp only [posteriorGenerator] at h
            exact Except.noConfusion h
        | cons n0 rest =>
            simp only [posteriorGenerator] at h
            split at h
            · simp only [ok_bind] at h
              cases hlp : posteriorGeneratorLoop fuel cfg numAux none
                  (some numAux) seed (ctr + 1) 1 (n0 :: rest) with
              | error e => rw [hlp] at h; simp [error_bind] at h
              | ok r =>
                  obtain ⟨p2, cc⟩ := r
                  rw [hlp] at h
                  simp only [ok_bind, Except.ok.injEq, Prod.mk.injEq] at h
                  obtain ⟨hp, hcc⟩ := h
                  subst hcc
                  obtain ⟨hle, hids⟩ := ihB4 _ _ _ _ _ _ _ _ _ hlp
                  refine ⟨by omega, ?_⟩
                  rw [← hp]
                  simp only [List.map_cons, chainIdsList, chainIds]
                  rw [hids]
                  have hr : cc - ctr = (cc - (ctr + 1)) + 1 := by omega
                  rw [hr]
                  rfl
            · cases hlp : posteriorGeneratorLoop fuel cfg numAux none none seed
                  ctr 0 (n0 :: rest) with
              | error e => rw [hlp] at h; simp [error_bind] at h
              | ok r =>
                  obtain ⟨p2, cc⟩ := r
                  rw [hlp] at h
                  simp only [ok_bind, Except.ok.injEq, Prod.mk.injEq] at h
                  obtain ⟨hp, hcc⟩ := h
                  subst hcc
                  obtain ⟨hle, hids⟩ := ihB4 _ _ _ _ _ _ _ _ _ hlp
                  rw [← hp]
                  exact ⟨hle, hids⟩
      -- B4: loop, construction mode
      · intro cfg numAux gav seed ctr i ns pairs c2 h
        cases ns with
        | nil =>
            simp only [posteriorGeneratorLoop, Except.ok.injEq, Prod.mk.injEq]
              at h
            obtain ⟨hp, hcc⟩ := h
            subst hcc
            refine ⟨Nat.le_refl _, ?_⟩
            rw [← hp]
            simp [chainIdsList, Nat.sub_self, List.range']
        | cons p rest =>
            obtain ⟨wasRoot, d⟩ := p
            cases gav with
            | none => simp [posteriorGeneratorLoop, ok_bind, error_bind] at h
            | some g =>
                simp only [posteriorGeneratorLoop, ok_bind] at h
                cases hc : cfSurrogateForDistribution fuel cfg 0 none (some g)
                    (splitSeed seed).2 ctr d with
                | error e => rw [hc] at h; simp [error_bind] at h
                | ok r =>
                    obtain ⟨s1, v1, c1⟩ := r
                    rw [hc] at h
                    simp only [ok_bind] at h
                    cases hlp : posteriorGeneratorLoop fuel cfg numAux none
                        (some g) (splitSeed seed).1 c1 (i + 1) rest with
                    | error e => rw [hlp] at h; simp [error_bind] at h
                    | ok r2 =>
                        obtain ⟨p2, cc⟩ := r2
                        rw [hlp] at h
                        simp only [ok_bind, Except.ok.injEq, Prod.mk.injEq] at h
                        obtain ⟨hp, hcc⟩ := h
                        subst hcc
                        obtain ⟨hle1, hids1⟩ := ihB1 _ _ _ _ _ _ _ _ _ hc
                        obtain ⟨hle2, hids2⟩ := ihB4 _ _ _ _ _ _ _ _ _ hlp
                        refine ⟨by omega, ?_⟩
                        rw [← hp]
                        simp only [List.map_cons, chainIdsList]
                        rw [hids1, hids2]
                        have hre := List.range'_append ctr (c1 - ctr) (cc - c1) 1
                        simp only [Nat.one_mul] at hre
                        have hx : ctr + (c1 - ctr) = c1 := by omega
                        rw [hx] at hre
                        rw [hre]
                        have hy : cc - c1 + (c1 - ctr) = cc - ctr := by omega
                        rw [hy]

/--
C2: trainable parameter objects are created only during the harvest pass.
(i) When a parameter set is supplied to the joint-surrogate builder
(`_cf_surrogate_for_joint_distribution` with non-`None` `variables`), the
given structure is returned verbatim and the allocation counter does not
advance; (ii) when a parameter set is supplied to the base-distribution
builder (`_cf_convex_update_for_base_distribution` with non-`None`
`variables`), the given transform is used as-is and nothing is allocated;
(iii) in construction mode (no variables supplied) the identifiers of the
chain objects allocated by `_cf_surrogate_for_distribution` are exactly the
consecutive counter values consumed — one per construction site — hence
pairwise distinct, and their number equals the counter advance.  By (i) and
(ii), re-sampling a finished surrogate against its harvested parameter-set
tree creates no new parameter objects.
-/
theorem c2_parameter_creation (fuel : Nat) (cfg : Config) (numAux : Nat)
    (gav : Option Nat) (seed : Seed) (ctr : Nat) :
    (∀ (v : VarTree) (ab : Bool) (nm : String) (ns : List (Bool × Dist))
      (s : Dist) (vo : VarTree) (c2 : Nat),
      cfSurrogateForJointDistribution fuel cfg numAux (some v) gav seed ctr
        ab nm ns = .ok (s, vo, c2) → vo = v ∧ c2 = ctr)
    ∧ (∀ (d : Dist) (b : Bij) (s : Dist) (b2 : Bij) (c2 : Nat),
      cfConvexUpdateForBaseDistribution cfg d gav (some b) seed ctr
        = .ok (s, b2, c2) → b2 = b ∧ c2 = ctr)
    ∧ (∀ (d : Dist) (s : Dist) (vo : VarTree) (c2 : Nat),
      cfSurrogateForDistribution fuel cfg numAux none gav seed ctr d
        = .ok (s, vo, c2) →
        chainIds vo = List.range' ctr (c2 - ctr)
        ∧ (chainIds vo).Nodup
        ∧ (chainIds vo).length = c2 - ctr) := by
  refine ⟨?_, ?_, ?_⟩
  · intro v ab nm ns s vo c2 h
    exact (walker_allocation fuel).2.1 _ _ _ _ _ _ _ _ _ _ _ _ h
  · intro d b s b2 c2 h
    exact convexUpdate_supplied_noalloc _ _ _ _ _ _ _ _ _ h
  · intro d s vo c2 h
    obtain ⟨hle, hids⟩ :=
      (walker_allocation fuel).2.2.2.2.1 _ _ _ _ _ _ _ _ _ h
    refine ⟨hids, ?_, ?_⟩
    · rw [hids]
      exact List.nodup_range' _ _
    · rw [hids, List.length_range']

/-- Witness for C2: a concrete two-node prior with one auxiliary variable,
harvested in construction mode, allocates consecutive, pairwise-distinct
chain identifiers (one per construction site: the auxiliary chain and one
chain per node); re-running the joint builder on a supplied parameter-set
tree returns it verbatim without advancing the counter; and the base builder
with a supplied chain returns that chain with the counter unchanged. -/
theorem c2_parameter_creation_witness :
    (∃ r : Dist × VarTree × Nat,
      cfSurrogateForDistribution 10 (cfgD 1 (1/2)) 1 none none (some 0) 0
          (.jointD true "m" [(true, .exponential "e"), (false, .base "y" [2])])
        = .ok r
      ∧ chainIds r.2.1 = List.range' 0 (r.2.2 - 0)
      ∧ (chainIds r.2.1).Nodup
      ∧ (chainIds r.2.1).length = r.2.2 - 0)
    ∧ (∃ r2 : Dist × VarTree × Nat,
      cfSurrogateForJointDistribution 10 (cfgD 1 (1/2)) 1
          (some (VarTree.jointV [VarTree.leafV (Bij.chainOf 7 []),
            VarTree.leafV (Bij.chainOf 8 []), VarTree.leafV (Bij.chainOf 9 [])]))
          none none 99 true "m"
          [(true, .exponential "e"), (false, .base "y" [2])]
        = .ok r2
      ∧ r2.2.1 = VarTree.jointV [VarTree.leafV (Bij.chainOf 7 []),
          VarTree.leafV (Bij.chainOf 8 []), VarTree.leafV (Bij.chainOf 9 [])]
      ∧ r2.2.2 = 99)
    ∧ (∃ q : Dist × Bij × Nat,
      cfConvexUpdateForBaseDistribution (cfgD 0 (1/2)) (.exponential "e")
          none (some (Bij.chainOf 7 [])) (some 0) 5
        = .ok q
      ∧ q.2.1 = Bij.chainOf 7 [] ∧ q.2.2 = 5) := by
  refine ⟨?_, ?_, ?_⟩
  · refine ⟨_, rfl, ?_, ?_, ?_⟩
    · exact ((c2_parameter_creation 10 (cfgD 1 (1/2)) 1 none (some 0) 0).2.2
        (.jointD true "m" [(true, .exponential "e"), (false, .base "y" [2])])
        _ _ _ rfl).1
    · exact ((c2_parameter_creation 10 (cfgD 1 (1/2)) 1 none (some 0) 0).2.2
        (.jointD true "m" [(true, .exponential "e"), (false, .base "y" [2])])
        _ _ _ rfl).2.1
    · exact ((c2_parameter_creation 10 (cfgD 1 (1/2)) 1 none (some 0) 0).2.2
        (.jointD true "m" [(true, .exponential "e"), (false, .base "y" [2])])
        _ _ _ rfl).2.2
  · refine ⟨_, rfl, ?_, ?_⟩
    · exact ((c2_parameter_creation 10 (cfgD 1 (1/2)) 1 none none 99).1
        (VarTree.jointV [VarTree.leafV (Bij.chainOf 7 []),
          VarTree.leafV (Bij.chainOf 8 []), VarTree.leafV (Bij.chainOf 9 [])])
        true "m" [(true, .exponential "e"), (false, .base "y" [2])]
        _ _ _ rfl).1
    · exact ((c2_parameter_creation 10 (cfgD 1 (1/2)) 1 none none 99).1
        (VarTree.jointV [VarTree.leafV (Bij.chainOf 7 []),
          VarTree.leafV (Bij.chainOf 8 []), VarTree.leafV (Bij.chainOf 9 [])])
        true "m" [(true, .exponential "e"), (false, .base "y" [2])]
        _ _ _ rfl).2
  · refine ⟨_, rfl, ?_, ?_⟩
    · exact ((c2_parameter_creation 10 (cfgD 0 (1/2)) 0 none (some 0) 5).2.1
        (.exponential "e") (Bij.chainOf 7 []) _ _ _ rfl).1
    · exact ((c2_parameter_creation 10 (cfgD 0 (1/2)) 0 none (some 0) 5).2.1
        (.exponential "e") (Bij.chainOf 7 []) _ _ _ rfl).2

end CascadingFlows
